import Mathlib

/-! ui/repl.c : option parsing, program execution and the interactive loop

A shallow embedding of `parse_opts`, `exec_program`, `true_main` (with its
interactive loop) and `main` from `src/ui/repl.c`, with theorems about them.

Conventions of the embedding.

* `char*` is `Option String` (`none` is `NULL`); `!strcmp(a,b)` is string equality.
* `int` is `Int`; no value met here comes near the limits of a machine `int`.
* `getopt_long` belongs to the C library.  One call of it is represented by the
  record of what it hands back (`GetoptRet`): the returned `c`, the global
  `optarg` and the global `optind` as it leaves them.
* The constants of `julia.h` that `repl.c` uses are not defined in `repl.c`;
  they are the fields of the parameter `JuliaH`.
* `exit(n)` is the outcome `Outcome.exit n`; reading through a `NULL` pointer
  (`strcmp(NULL, _)`, `strdup(NULL)`) is the outcome `Outcome.undefined`.
-/

namespace Repl

/-! ## Data model -/

/-- Constants of `julia.h` referenced by `repl.c`. -/
structure JuliaH where
  JL_LOG_NONE : Int
  JL_LOG_USER : Int
  JL_LOG_ALL : Int
  JL_COMPILEROPT_CHECK_BOUNDS_ON : Int
  JL_COMPILEROPT_CHECK_BOUNDS_OFF : Int
  JL_COMPILEROPT_DUMPBITCODE_ON : Int
  JL_COMPILEROPT_DUMPBITCODE_OFF : Int
  deriving DecidableEq, Repr

/-- The fields of the global `jl_compileropts` that `repl.c` assigns. -/
structure jl_compileropts_t where
  julia_home : Option String
  build_path : Option String
  image_file : Option String
  cpu_target : Option String
  opt_level : Int
  check_bounds : Int
  int_literals : Int
  dumpbitcode : Int
  compile_enabled : Int
  depwarn : Int
  code_coverage : Int
  malloc_log : Int
  deriving DecidableEq, Repr

/-- Everything `parse_opts` reads or writes: the global `jl_compileropts`, the
file-level statics, the `getopt` global `optind`, the locals `skip` and
`lastind`, the caller's `*argcp` and `*argvp` (the latter as an offset into the
original vector), and what has been written to the two output streams. -/
structure State where
  jl_compileropts : jl_compileropts_t
  lisp_prompt : Int
  codecov : Int
  malloclog : Int
  imagepathspecified : Int
  optind : Int
  skip : Int
  lastind : Int
  argc : Int
  argv : Int
  ios_stdout : List String
  ios_stderr : List String
  deriving DecidableEq, Repr

/-- What one call of `getopt_long` hands back. -/
structure GetoptRet where
  c : Int
  optarg : Option String
  optind : Int
  deriving DecidableEq, Repr

/-- How a `switch` arm (or the whole of `parse_opts`) ends. -/
inductive Outcome where
  | cont (s : State)
  | exit (status : Int) (s : State)
  | undefined
  deriving DecidableEq, Repr

/-! ## The option tables -/

inductive HasArg where
  | no_argument
  | required_argument
  | optional_argument
  deriving DecidableEq, Repr

/-- One `struct option`; `flag` tells whether the flag pointer is set (the only
such pointer in the table is `&lisp_prompt`). -/
structure LongOpt where
  name : String
  has_arg : HasArg
  flag : Bool
  val : Int
  deriving DecidableEq, Repr

def shortopts : String := "+H:hJ:C:O"

def longopts : List LongOpt :=
  [ ⟨"home",             .required_argument, false, 72⟩,   -- 'H'
    ⟨"build",            .required_argument, false, 98⟩,   -- 'b'
    ⟨"lisp",             .no_argument,       true,  1⟩,
    ⟨"help",             .no_argument,       false, 104⟩,  -- 'h'
    ⟨"sysimage",         .required_argument, false, 74⟩,   -- 'J'
    ⟨"code-coverage",    .optional_argument, false, 99⟩,   -- 'c'
    ⟨"cpu-target",       .required_argument, false, 67⟩,   -- 'C'
    ⟨"track-allocation", .required_argument, false, 109⟩,  -- 'm'
    ⟨"check-bounds",     .required_argument, false, 300⟩,
    ⟨"optimize",         .no_argument,       false, 79⟩,   -- 'O'
    ⟨"int-literals",     .required_argument, false, 301⟩,
    ⟨"dump-bitcode",     .required_argument, false, 302⟩,
    ⟨"compile",          .required_argument, false, 303⟩,
    ⟨"depwarn",          .required_argument, false, 304⟩ ]

def usage : String := "julia [options] [program] [args...]\n"

def opts : String :=
  " -v, --version            Display version information\n" ++
  " -h, --help               Print this message\n" ++
  " -q, --quiet              Quiet startup without banner\n" ++
  " -H, --home <dir>         Set location of julia executable\n\n" ++
  " -e, --eval <expr>        Evaluate <expr>\n" ++
  " -E, --print <expr>       Evaluate and show <expr>\n" ++
  " -P, --post-boot <expr>   Evaluate <expr>, but don\x27t disable interactive mode\n" ++
  " -L, --load <file>        Load <file> immediately on all processors\n" ++
  " -J, --sysimage <file>    Start up with the given system image file\n" ++
  " -C --cpu-target <target> Limit usage of cpu features up to <target>\n\n" ++
  " -p <n>                   Run n local processes\n" ++
  " --machinefile <file>     Run processes on hosts listed in <file>\n\n" ++
  " -i                       Force isinteractive() to be true\n" ++
  " --no-history-file        Don\x27t load or save history\n" ++
  " -f, --no-startup         Don\x27t load ~/.juliarc.jl\n" ++
  " -F                       Load ~/.juliarc.jl, then handle remaining inputs\n" ++
  " --color=\x7byes|no\x7d         Enable or disable color text\n\n" ++
  " --compile=\x7byes|no|all\x7d   Enable or disable compiler, or request exhaustive compilation\n\n" ++
  " --code-coverage=\x7bnone|user|all\x7d, --code-coverage\n" ++
  "                          Count executions of source lines (omitting setting is equivalent to \x27user\x27)\n" ++
  " --track-allocation=\x7bnone|user|all\x7d\n" ++
  "                          Count bytes allocated by each source line\n" ++
  " --check-bounds=\x7byes|no\x7d  Emit bounds checks always or never (ignoring declarations)\n" ++
  " -O, --optimize           Run time-intensive code optimizations\n" ++
  " --int-literals=\x7b32|64\x7d   Select integer literal size independent of platform\n" ++
  " --dump-bitcode=\x7byes|no\x7d  Dump bitcode for the cache image (used with --build)\n" ++
  " --depwarn=\x7byes|no\x7d       Enable or disable syntax and method deprecation warnings\n"

/-! ## `parse_opts` -/

/-- The text `ios_printf` produces for `"... (%s)\n"` with a leading fixed part. -/
def fmt_paren (head : String) (arg : String) : String :=
  head ++ "(" ++ arg ++ ")\n"

/-- The text of `"julia: unhandled option -- %c\n"`: `%c` prints the `int`
converted to `unsigned char`. -/
def fmt_unhandled (c : Int) : String :=
  "julia: unhandled option -- " ++ String.singleton (Char.ofNat (c % 256).toNat) ++ "\n"

/-- Arm `case 300:` (also reached by falling out of `case 'm':`). -/
def case_300 (k : JuliaH) (optarg : Option String) (st : State) : Outcome :=
  match optarg with
  | none => .undefined
  | some v =>
    if v = "yes" then
      .cont { st with jl_compileropts :=
                { st.jl_compileropts with check_bounds := k.JL_COMPILEROPT_CHECK_BOUNDS_ON } }
    else if v = "no" then
      .cont { st with jl_compileropts :=
                { st.jl_compileropts with check_bounds := k.JL_COMPILEROPT_CHECK_BOUNDS_OFF } }
    else .cont st

/-- The body of the `switch (c)` of `parse_opts`, one arm per `case`, in the
order of the source.  `optind` is the value `getopt_long` left in the global. -/
def switch_c (k : JuliaH) (c : Int) (optarg : Option String) (st : State) : Outcome :=
  if c = 0 then .cont st
  else if c = 63 then                                  -- case '?'
    .cont { st with skip := if st.optind ≠ st.lastind then st.skip + 1 else st.skip,
                    lastind := st.optind }
  else if c = 72 then                                  -- case 'H'
    match optarg with
    | none => .undefined
    | some v => .cont { st with jl_compileropts := { st.jl_compileropts with julia_home := some v } }
  else if c = 98 then                                  -- case 'b'
    match optarg with
    | none => .undefined
    | some v =>
      let st1 := { st with jl_compileropts := { st.jl_compileropts with build_path := some v } }
      if st1.imagepathspecified = 0 then
        .cont { st1 with jl_compileropts := { st1.jl_compileropts with image_file := none } }
      else .cont st1
  else if c = 74 then                                  -- case 'J'
    match optarg with
    | none => .undefined
    | some v =>
      .cont { st with jl_compileropts := { st.jl_compileropts with image_file := some v },
                      imagepathspecified := 1 }
  else if c = 67 then                                  -- case 'C'
    match optarg with
    | none => .undefined
    | some v => .cont { st with jl_compileropts := { st.jl_compileropts with cpu_target := some v } }
  else if c = 104 then                                 -- case 'h'
    .exit 0 { st with ios_stdout := st.ios_stdout ++ [usage ++ opts] }
  else if c = 79 then                                  -- case 'O'
    .cont { st with jl_compileropts := { st.jl_compileropts with opt_level := 1 } }
  else if c = 99 then                                  -- case 'c'
    match optarg with
    | some v =>
      if v = "user" then .cont { st with codecov := k.JL_LOG_USER }
      else if v = "all" then .cont { st with codecov := k.JL_LOG_ALL }
      else if v = "none" then .cont { st with codecov := k.JL_LOG_NONE }
      else .cont st
    | none => .cont { st with codecov := k.JL_LOG_USER }
  else if c = 109 then                                 -- case 'm'
    match optarg with
    | some v =>
      if v = "user" then .cont { st with malloclog := k.JL_LOG_USER }
      else if v = "all" then .cont { st with malloclog := k.JL_LOG_ALL }
      else if v = "none" then .cont { st with malloclog := k.JL_LOG_NONE }
      else .cont st
    | none => case_300 k optarg st                     -- no break: falls into case 300
  else if c = 300 then case_300 k optarg st
  else if c = 301 then
    match optarg with
    | none => .undefined
    | some v =>
      if v = "32" then .cont { st with jl_compileropts := { st.jl_compileropts with int_literals := 32 } }
      else if v = "64" then .cont { st with jl_compileropts := { st.jl_compileropts with int_literals := 64 } }
      else .exit 1 { st with ios_stderr :=
                       st.ios_stderr ++ [fmt_paren "julia: invalid integer literal size " v] }
  else if c = 302 then
    match optarg with
    | none => .undefined
    | some v =>
      if v = "yes" then
        .cont { st with jl_compileropts :=
                  { st.jl_compileropts with dumpbitcode := k.JL_COMPILEROPT_DUMPBITCODE_ON } }
      else if v = "no" then
        .cont { st with jl_compileropts :=
                  { st.jl_compileropts with dumpbitcode := k.JL_COMPILEROPT_DUMPBITCODE_OFF } }
      else .cont st
  else if c = 303 then
    match optarg with
    | none => .undefined
    | some v =>
      if v = "yes" then .cont { st with jl_compileropts := { st.jl_compileropts with compile_enabled := 1 } }
      else if v = "no" then .cont { st with jl_compileropts := { st.jl_compileropts with compile_enabled := 0 } }
      else if v = "all" then .cont { st with jl_compileropts := { st.jl_compileropts with compile_enabled := 2 } }
      else .exit 1 { st with ios_stderr :=
                       st.ios_stderr ++ [fmt_paren "julia: invalid argument to --compile " v] }
  else if c = 304 then
    match optarg with
    | none => .undefined
    | some v =>
      if v = "yes" then .cont { st with jl_compileropts := { st.jl_compileropts with depwarn := 1 } }
      else if v = "no" then .cont { st with jl_compileropts := { st.jl_compileropts with depwarn := 0 } }
      else .exit 1 { st with ios_stderr :=
                       st.ios_stderr ++ [fmt_paren "julia: invalid argument to --depwarn " v] }
  else                                                 -- default
    .exit 1 { st with ios_stderr :=
                st.ios_stderr ++ [fmt_unhandled c, "This is a bug, please report it.\n"] }

/-- The effect of the call `getopt_long(...)` itself on the program state: it
leaves `optind` as reported, and for the `lisp` entry (the one entry with a flag
pointer, for which it returns 0) it stores the entry's `val`, 1, into
`lisp_prompt`. -/
def getopt_long (r : GetoptRet) (st : State) : State :=
  { st with optind := r.optind, lisp_prompt := if r.c = 0 then 1 else st.lisp_prompt }

/-- The `while ((c = getopt_long(...)) != -1) switch (c) ...` loop, run over the
successive results of `getopt_long`.  When the list is used up, the next call
returns -1 and leaves `optind` at `endind`. -/
def parse_loop (k : JuliaH) (endind : Int) : List GetoptRet → State → Outcome
  | [], st => .cont { st with optind := endind }
  | r :: rs, st =>
    if r.c = -1 then .cont { st with optind := r.optind }
    else
      match switch_c k r.c r.optarg (getopt_long r st) with
      | .cont st1 => parse_loop k endind rs st1
      | .exit n st1 => .exit n st1
      | .undefined => .undefined

/-- The statements after the loop. -/
def parse_finish (st : State) : State :=
  let st1 := { st with jl_compileropts :=
                 { st.jl_compileropts with code_coverage := st.codecov, malloc_log := st.malloclog } }
  let st2 := { st1 with optind := st1.optind - st1.skip }
  { st2 with argv := st2.argv + st2.optind, argc := st2.argc - st2.optind }

/-- The function `parse_opts`: `opterr` is cleared (it only silences `getopt`),
`skip = 0`, `lastind = optind`, the loop, the final assignments. -/
def parse_opts (k : JuliaH) (rets : List GetoptRet) (endind : Int) (st : State) : Outcome :=
  match parse_loop k endind rets { st with skip := 0, lastind := st.optind } with
  | .cont st1 => .cont (parse_finish st1)
  | .exit n st1 => .exit n st1
  | .undefined => .undefined

/-! ## The interactive loop of `true_main`

The loop talks to collaborators that are not part of `repl.c`: the `ios`
streams, the evaluator, the renderer and the event loop.  Their behaviour is the
parameter `Env`.  A call made inside `JL_TRY` may leave by a non-local jump to
`JL_CATCH`; whether it does is asked of `Env.throws`.  Locals that the handler
reads (`line`, `iserr`) are part of the loop state and keep the value last
stored in them.  Every call is appended to a log, in program order. -/

inductive Stream where
  | JL_STDOUT
  | JL_STDERR
  deriving DecidableEq, Repr

/-- The `jl_value_t*` given to the renderer: the global `jl_exception_in_transit`
or the result `val` of the evaluation (a pointer, as a number; 0 is `NULL`). -/
inductive Shown where
  | jl_exception_in_transit
  | val (v : Nat)
  deriving DecidableEq, Repr

/-- A buffer returned by `ios_readline`: its address and its text. -/
structure Buf where
  addr : Nat
  text : String
  deriving DecidableEq, Repr

/-- Entries of the log: the calls of the loop, and `JL_CATCH` for the entry into
the handler. -/
inductive Call where
  | ios_eof
  | jl_printf (s : Stream) (text : String)
  | jl_static_show (s : Stream) (v : Shown)
  | JL_PUTS (text : String) (s : Stream)
  | ios_puts (text : String)
  | ios_flush
  | ios_readline
  | jl_eval_string (line : Buf)
  | jl_exception_occurred
  | jl_exception_clear
  | free (addr : Nat)
  | uv_run
  | JL_CATCH
  deriving DecidableEq, Repr

/-- Behaviour of the collaborators.  A pass is one trip through the loop test;
passes are numbered from 0.  `eof i` is what `ios_eof(ios_stdin)` answers at the
test of pass `i`; `readline i`, `eval i` (0 is `NULL`) and `occurred i` are
what `ios_readline`, `jl_eval_string` and `jl_exception_occurred` return in pass
`i`; `throws i j` tells whether the `j`-th call inside `JL_TRY` in pass `i`
(counted from 0) jumps to `JL_CATCH` instead of returning. -/
structure Env where
  eof : Nat → Bool
  readline : Nat → String
  eval : Nat → Nat
  occurred : Nat → Bool
  throws : Nat → Nat → Bool

/-- State of the loop: the locals `iserr` and `line`, the number of the current
pass and of the next call in it, how many buffers `ios_readline` has returned,
and the log. -/
structure Loop where
  pass : Nat
  call : Nat
  iserr : Int
  line : Option Buf
  nalloc : Nat
  log : List Call
  deriving DecidableEq, Repr

/-- Result of running code inside `JL_TRY`: it finishes, or a call jumped out. -/
inductive Res (α : Type) where
  | ok (a : α) (s : Loop)
  | thrown (s : Loop)

/-- Code inside `JL_TRY`. -/
def M (α : Type) : Type := Loop → Res α

def M.pure {α : Type} (a : α) : M α := fun s => .ok a s

def M.bind {α β : Type} (m : M α) (f : α → M β) : M β := fun s =>
  match m s with
  | .ok a s1 => f a s1
  | .thrown s1 => .thrown s1

instance : Monad M where
  pure := M.pure
  bind := M.bind

/-- A call inside `JL_TRY` whose result is not used. -/
def ext (env : Env) (c : Call) : M Unit := fun s =>
  let s1 := { s with log := s.log ++ [c], call := s.call + 1 }
  if env.throws s.pass s.call then .thrown s1 else .ok () s1

/-- The call `ios_readline(ios_stdin)`: a fresh buffer holding the line. -/
def ios_readline (env : Env) : M Buf := fun s =>
  let s1 := { s with log := s.log ++ [.ios_readline], call := s.call + 1 }
  if env.throws s.pass s.call then .thrown s1
  else .ok ⟨s.nalloc, env.readline s.pass⟩ { s1 with nalloc := s.nalloc + 1 }

/-- The call `jl_eval_string(line)`. -/
def jl_eval_string (env : Env) (line : Buf) : M Nat := fun s =>
  let s1 := { s with log := s.log ++ [.jl_eval_string line], call := s.call + 1 }
  if env.throws s.pass s.call then .thrown s1 else .ok (env.eval s.pass) s1

/-- The call `jl_exception_occurred()`. -/
def jl_exception_occurred (env : Env) : M Bool := fun s =>
  let s1 := { s with log := s.log ++ [.jl_exception_occurred], call := s.call + 1 }
  if env.throws s.pass s.call then .thrown s1 else .ok (env.occurred s.pass) s1

/-- The call `free(p)`; `free(NULL)` does nothing.  It never jumps. -/
def free (p : Option Buf) : M Unit := fun s =>
  match p with
  | some b => .ok () { s with log := s.log ++ [.free b.addr] }
  | none => .ok () s

def get_iserr : M Int := fun s => .ok s.iserr s

def get_line : M (Option Buf) := fun s => .ok s.line s

def set_iserr (v : Int) : M Unit := fun s => .ok () { s with iserr := v }

def set_line (v : Option Buf) : M Unit := fun s => .ok () { s with line := v }

/-- The block of `JL_TRY` in the loop. -/
def try_block (env : Env) : M Unit := do
  let iserr ← get_iserr
  if iserr ≠ 0 then
    ext env (.jl_printf .JL_STDERR "\nerror in printing:\n")
    ext env (.jl_static_show .JL_STDOUT .jl_exception_in_transit)
    ext env (.JL_PUTS "\n" .JL_STDOUT)
    set_iserr 0
  else
    ext env (.ios_puts "\njulia> ")
    ext env .ios_flush
    let l ← ios_readline env
    set_line (some l)
    let val ← jl_eval_string env l
    let occ ← jl_exception_occurred env
    if occ then
      ext env (.JL_PUTS "error during run:\n" .JL_STDERR)
      ext env (.jl_static_show .JL_STDOUT .jl_exception_in_transit)
      ext env .jl_exception_clear
    else if val ≠ 0 then
      ext env (.jl_static_show .JL_STDOUT (.val val))
    ext env (.JL_PUTS "\n" .JL_STDOUT)
    free (← get_line)
    set_line none
  ext env .uv_run

/-- The block of `JL_CATCH`, up to and including `goto again`, which runs the
declaration `char *line = NULL` again. -/
def catch_block (s : Loop) : Loop :=
  let s0 : Loop := { s with log := s.log ++ [Call.JL_CATCH] }
  let s1 : Loop := match s0.line with
    | some b => { s0 with log := s0.log ++ [Call.free b.addr], line := none }
    | none => s0
  let s2 : Loop := { s1 with iserr := 1 }
  { s2 with line := none }

/-- The body of the `while`, from after a loop test that found input up to the
next loop test. -/
def body (env : Env) (s : Loop) : Loop :=
  match try_block env { s with call := 0 } with
  | .ok _ s1 => { s1 with pass := s1.pass + 1 }
  | .thrown s1 => { catch_block s1 with pass := s1.pass + 1 }

/-- The loop test `!ios_eof(ios_stdin)`: the call is logged. -/
def test (s : Loop) : Loop := { s with log := s.log ++ [.ios_eof] }

/-- The loop from a loop test on: `some r` when it ends with `return r` within
`fuel` loop tests. -/
def loop (env : Env) : Nat → Loop → Option (Int × Loop)
  | 0, _ => none
  | fuel + 1, s =>
    if env.eof s.pass then some (s.iserr, test s)
    else loop env fuel (body env (test s))

/-- The state in which the loop is entered: `int iserr = 0; again: char *line = NULL`. -/
def entry : Loop := ⟨0, 0, 0, none, 0, []⟩

/-- The interactive part of `true_main` (from `int iserr = 0` to `return iserr`). -/
def interactive (env : Env) (fuel : Nat) : Option (Int × Loop) := loop env fuel entry

/-- The state at the `n`-th loop test (counted from 0), as long as no earlier
test found end-of-input. -/
def at_test (env : Env) : Nat → Loop
  | 0 => entry
  | n + 1 => body env (test (at_test env n))

/-! ## Reading a run of `parse_opts`

Definitions used to state what `parse_opts` computes: which results of
`getopt_long` the loop gets to see, what `getopt_long` can return for the tables
above, and the quantities the statements are about. -/

/-- The occurrences the loop processes: those before the first -1. -/
def processed (rets : List GetoptRet) : List GetoptRet :=
  rets.takeWhile (fun r => r.c ≠ -1)

/-- The option characters of a short-option string and the kind of their
argument (`x` none, `x:` required, `x::` optional), as `getopt` reads it. -/
def short_specs : List Char → List (Char × HasArg)
  | [] => []
  | [c] => [(c, .no_argument)]
  | c :: d :: rest =>
    if d = ':' then
      match rest with
      | e :: rest2 =>
        if e = ':' then (c, .optional_argument) :: short_specs rest2
        else (c, .required_argument) :: short_specs (e :: rest2)
      | [] => [(c, .required_argument)]
    else (c, .no_argument) :: short_specs (d :: rest)
termination_by l => l.length

/-- The short options of `parse_opts`: `shortopts` without its leading `+`. -/
def short_table : List (Char × HasArg) :=
  short_specs (shortopts.toList.drop 1)

/-- Whether `optarg` fits the argument kind of the option found: `getopt_long`
reports an option that requires an argument only together with that argument. -/
def arg_ok (h : HasArg) (optarg : Option String) : Bool :=
  match h with
  | .required_argument => optarg.isSome
  | _ => true

/-- What `getopt_long` can return (other than -1) for `shortopts` and
`longopts`: `'?'`; for a long option the `val` of its entry, or 0 when the entry
has a flag pointer; for a short option its character. -/
def returnable (r : GetoptRet) : Bool :=
  r.c == 63
  || longopts.any (fun o => if o.flag then r.c == 0 else r.c == o.val && arg_ok o.has_arg r.optarg)
  || short_table.any (fun p => r.c == (p.1.toNat : Int) && arg_ok p.2 r.optarg)

/-- The arguments of the `--sysimage`/`-J` occurrences, in order. -/
def sysimage_args (occs : List GetoptRet) : List String :=
  occs.filterMap (fun r => if r.c = 74 then r.optarg else none)

/-- Whether there is a `--build` occurrence. -/
def has_build (occs : List GetoptRet) : Bool :=
  occs.any (fun r => r.c == 98)

/-- The image file as the rule of the specification gives it: the argument of
the last `--sysimage`/`-J` occurrence if there is one; otherwise `NULL` if there
is a `--build` occurrence; otherwise the default. -/
def image_file_rule (dflt : Option String) (occs : List GetoptRet) : Option String :=
  match (sysimage_args occs).getLast? with
  | some v => some v
  | none => if has_build occs then none else dflt

/-- The `optarg`s of the `--code-coverage` occurrences, in order. -/
def code_coverage_args (occs : List GetoptRet) : List (Option String) :=
  (occs.filter (fun r => r.c == 99)).map (fun r => r.optarg)

/-- The coverage mode after one `--code-coverage` occurrence, as the
specification words it: no argument or `"user"` gives `JL_LOG_USER`, `"all"`
gives `JL_LOG_ALL`, `"none"` gives `JL_LOG_NONE`, any other string leaves the
prior mode. -/
def coverage_rule (k : JuliaH) (prior : Int) (arg : Option String) : Int :=
  if arg = none ∨ arg = some "user" then k.JL_LOG_USER
  else if arg = some "all" then k.JL_LOG_ALL
  else if arg = some "none" then k.JL_LOG_NONE
  else prior

/-- The log mode after one `--track-allocation=v` occurrence. -/
def track_rule (k : JuliaH) (prior : Int) (v : String) : Int :=
  if v = "none" then k.JL_LOG_NONE
  else if v = "user" then k.JL_LOG_USER
  else if v = "all" then k.JL_LOG_ALL
  else prior

/-- An occurrence of help (`-h`, `--help`). -/
def is_help (r : GetoptRet) : Bool := r.c == 104

/-- An occurrence of `--int-literals`, `--compile` or `--depwarn` with a value
outside the accepted set. -/
def is_invalid (r : GetoptRet) : Bool :=
  match r.optarg with
  | none => false
  | some v =>
    (r.c == 301 && v != "32" && v != "64")
    || (r.c == 303 && v != "yes" && v != "no" && v != "all")
    || (r.c == 304 && v != "yes" && v != "no")

/-- The first occurrence that is help or an invalid value. -/
def first_fatal (occs : List GetoptRet) : Option GetoptRet :=
  occs.find? (fun r => is_help r || is_invalid r)

/-- Values for the constants of `julia.h`, as in the Julia sources of the time;
used only to evaluate the definitions at concrete inputs. -/
def julia_h : JuliaH := ⟨0, 1, 2, 1, 2, 1, 2⟩

/-- A state at program start: the statics as initialised in `repl.c`, `optind`
as the C library initialises it, nothing written yet, and the given values of
`jl_compileropts`, `argc`. -/
def initial (k : JuliaH) (dflt : jl_compileropts_t) (argc : Int) : State :=
  { jl_compileropts := dflt, lisp_prompt := 0, codecov := k.JL_LOG_NONE,
    malloclog := k.JL_LOG_NONE, imagepathspecified := 0, optind := 1, skip := 0,
    lastind := 1, argc := argc, argv := 0, ios_stdout := [], ios_stderr := [] }

/-- Sample defaults of `jl_compileropts` for evaluation at concrete inputs. -/
def sample_opts : jl_compileropts_t :=
  { julia_home := none, build_path := none, image_file := some "sys.ji",
    cpu_target := none, opt_level := 0, check_bounds := 0, int_literals := 0,
    dumpbitcode := 0, compile_enabled := 1, depwarn := 1, code_coverage := 0,
    malloc_log := 0 }

/-! ## Reading a run of the interactive loop -/

/-- What holds after code inside `JL_TRY` has run from `s`: `Q` of the result and
the state if it finished, `R` of the state if a call jumped to `JL_CATCH`. -/
def wp {α : Type} (m : M α) (Q : α → Loop → Prop) (R : Loop → Prop) (s : Loop) : Prop :=
  match m s with
  | .ok a s1 => Q a s1
  | .thrown s1 => R s1

/-- The calls of a pass that takes the `iserr` branch and in which no call
jumps. -/
def report_calls : List Call :=
  [.jl_printf .JL_STDERR "\nerror in printing:\n",
   .jl_static_show .JL_STDOUT .jl_exception_in_transit,
   .JL_PUTS "\n" .JL_STDOUT,
   .uv_run]

/-- The calls that render the outcome of an evaluation: the report of a
recoverable error, or the value if there is one. -/
def render_calls (occurred : Bool) (val : Nat) : List Call :=
  if occurred then
    [.JL_PUTS "error during run:\n" .JL_STDERR,
     .jl_static_show .JL_STDOUT .jl_exception_in_transit,
     .jl_exception_clear]
  else if val ≠ 0 then [.jl_static_show .JL_STDOUT (.val val)]
  else []

/-- The calls of pass `i` when it reads a line into the buffer at `addr` and no
call jumps. -/
def read_calls (env : Env) (i addr : Nat) : List Call :=
  [.ios_puts "\njulia> ", .ios_flush, .ios_readline,
   .jl_eval_string ⟨addr, env.readline i⟩, .jl_exception_occurred]
  ++ render_calls (env.occurred i) (env.eval i)
  ++ [.JL_PUTS "\n" .JL_STDOUT, .free addr, .uv_run]

/-- Whether some call inside `JL_TRY` jumps in pass `i`, started from `s`. -/
def pass_throws (env : Env) (s : Loop) : Bool :=
  match try_block env { test s with call := 0 } with
  | .ok _ _ => false
  | .thrown _ => true

/-- What the pass started at the loop test in state `s` appends to the log: the
loop test, the calls of the pass, and the handler if it is entered. -/
def pass_log (env : Env) (s : Loop) : List Call :=
  (body env (test s)).log.drop s.log.length

/-- A sample behaviour of the collaborators: two lines are read, then
end-of-input; the first evaluates to a value, the second raises a recoverable
error; no call jumps. -/
def calm_env : Env :=
  { eof := fun i => decide (2 ≤ i),
    readline := fun i => if i = 0 then "1+1" else "1/0",
    eval := fun i => if i = 0 then 2 else 0,
    occurred := fun i => decide (i = 1),
    throws := fun _ _ => false }

/-- A sample behaviour in which the renderer jumps on the value of the first
line and on everything it is given afterwards (call 5 of pass 0 is
`jl_static_show(JL_STDOUT, val)`, call 1 of a pass that takes the `iserr` branch
is `jl_static_show(JL_STDOUT, jl_exception_in_transit)`); input never ends. -/
def broken_show_env : Env :=
  { eof := fun _ => false,
    readline := fun _ => "x",
    eval := fun _ => 7,
    occurred := fun _ => false,
    throws := fun i j => (i == 0 && j == 5) || (i != 0 && j == 1) }

/-- A sample behaviour in which the renderer jumps on the value of the first
line, which is followed by end-of-input. -/
def eof_after_failure_env : Env :=
  { eof := fun i => decide (1 ≤ i),
    readline := fun _ => "x",
    eval := fun _ => 7,
    occurred := fun _ => false,
    throws := fun i j => i == 0 && j == 5 }

/-- A sample behaviour in which the renderer jumps on the value of the first
line only; two more lines follow. -/
def one_failure_env : Env :=
  { eof := fun i => decide (4 ≤ i),
    readline := fun _ => "x",
    eval := fun _ => 7,
    occurred := fun _ => false,
    throws := fun i j => i == 0 && j == 5 }

/-- A sample behaviour in which the evaluation of the first line raises a
recoverable error and the renderer jumps on the exception in transit while the
error is reported (call 6 of pass 0); end-of-input follows. -/
def error_render_fails_env : Env :=
  { eof := fun i => decide (1 ≤ i),
    readline := fun _ => "1/0",
    eval := fun _ => 0,
    occurred := fun _ => true,
    throws := fun i j => i == 0 && j == 6 }

/-! ## Configuration, cursor and spellings

Definitions used to state what `parse_opts` does to the Configuration as a
whole, to the argument cursor, and how spellings map to results of
`getopt_long`. -/

/-- The Configuration: `jl_compileropts`, `imagepathspecified`, and the statics
whose values end up in it or select the mode (`codecov`, `malloclog`,
`lisp_prompt`). -/
structure Cfg where
  opts : jl_compileropts_t
  imagepathspecified : Int
  codecov : Int
  malloclog : Int
  lisp_prompt : Int
  deriving DecidableEq, Repr

/-- The Configuration part of a state. -/
def cfg_of (st : State) : Cfg :=
  ⟨st.jl_compileropts, st.imagepathspecified, st.codecov, st.malloclog, st.lisp_prompt⟩

/-- The value of `check_bounds` after `--check-bounds=v`. -/
def check_bounds_rule (k : JuliaH) (prior : Int) (arg : Option String) : Int :=
  if arg = some "yes" then k.JL_COMPILEROPT_CHECK_BOUNDS_ON
  else if arg = some "no" then k.JL_COMPILEROPT_CHECK_BOUNDS_OFF
  else prior

/-- The value of `dumpbitcode` after `--dump-bitcode=v`. -/
def dumpbitcode_rule (k : JuliaH) (prior : Int) (arg : Option String) : Int :=
  if arg = some "yes" then k.JL_COMPILEROPT_DUMPBITCODE_ON
  else if arg = some "no" then k.JL_COMPILEROPT_DUMPBITCODE_OFF
  else prior

/-- What one occurrence that does not end the run does to the Configuration,
field by field: each field is written by the occurrences of one flag only,
except `image_file`, which `--sysimage` sets and `--build` clears while no
`--sysimage` has been seen. -/
def cfg_step (k : JuliaH) (c : Int) (optarg : Option String) (m : Cfg) : Cfg :=
  { opts :=
      { julia_home := if c = 72 then optarg else m.opts.julia_home,
        build_path := if c = 98 then optarg else m.opts.build_path,
        image_file :=
          if c = 74 then optarg
          else if c = 98 ∧ m.imagepathspecified = 0 then none
          else m.opts.image_file,
        cpu_target := if c = 67 then optarg else m.opts.cpu_target,
        opt_level := if c = 79 then 1 else m.opts.opt_level,
        check_bounds :=
          if c = 300 then check_bounds_rule k m.opts.check_bounds optarg
          else m.opts.check_bounds,
        int_literals :=
          if c = 301 then (if optarg = some "32" then 32 else 64) else m.opts.int_literals,
        dumpbitcode :=
          if c = 302 then dumpbitcode_rule k m.opts.dumpbitcode optarg
          else m.opts.dumpbitcode,
        compile_enabled :=
          if c = 303 then
            (if optarg = some "yes" then 1 else if optarg = some "no" then 0 else 2)
          else m.opts.compile_enabled,
        depwarn :=
          if c = 304 then (if optarg = some "yes" then 1 else 0) else m.opts.depwarn,
        code_coverage := m.opts.code_coverage,
        malloc_log := m.opts.malloc_log },
    imagepathspecified := if c = 74 then 1 else m.imagepathspecified,
    codecov := if c = 99 then coverage_rule k m.codecov optarg else m.codecov,
    malloclog :=
      if c = 109 then
        (match optarg with
         | some v => track_rule k m.malloclog v
         | none => m.malloclog)
      else m.malloclog,
    lisp_prompt := if c = 0 then 1 else m.lisp_prompt }

/-- What identifies an occurrence as far as the Configuration goes: the flag
(`c`) and its argument; `optind` tells only where it stood. -/
def occ_key (r : GetoptRet) : Int × Option String := (r.c, r.optarg)

/-- Whether an arm continues, whatever the state. -/
def continues (k : JuliaH) (c : Int) (optarg : Option String) : Prop :=
  ∀ st : State, ∃ st1, switch_c k c optarg st = .cont st1

/-- The value of `optind` when the loop ends: the one left by the call that
returned -1. -/
def loop_end_optind (endind : Int) : List GetoptRet → Int
  | [] => endind
  | r :: rs => if r.c = -1 then r.optind else loop_end_optind endind rs

/-- A trace of `getopt_long` whose `optind` values never go below `cur`, never
decrease and never exceed `argc`. -/
def optind_trace_ok (argc endind : Int) : Int → List GetoptRet → Bool
  | cur, [] => decide (cur ≤ endind) && decide (endind ≤ argc)
  | cur, r :: rs =>
    decide (cur ≤ r.optind) &&
      (if r.c = -1 then decide (r.optind ≤ argc) else optind_trace_ok argc endind r.optind rs)

/-- The residual arguments: the original vector from the offset that
`parse_opts` leaves in `*argvp`. -/
def residual (argv : List String) (st : State) : List String :=
  argv.drop st.argv.toNat

/-- The `case` labels of the `switch` in `parse_opts`. -/
def case_labels : List Int :=
  [0, 63, 72, 98, 74, 67, 104, 79, 99, 109, 300, 301, 302, 303, 304]

/-- The outcome of the `default` branch. -/
def default_outcome (c : Int) (st : State) : Outcome :=
  .exit 1 { st with ios_stderr :=
              st.ios_stderr ++ [fmt_unhandled c, "This is a bug, please report it.\n"] }

/-- What `getopt_long` returns in `c` for the short spelling `-x` given
`shortopts`: the character if it is one of the option characters, `'?'`
otherwise. -/
def short_c (x : Char) : Int :=
  if short_table.any (fun p => p.1 == x) then (x.toNat : Int) else 63

/-- What `getopt_long` returns in `c` for the long spelling `--name` given
`longopts`: 0 for an entry with a flag pointer, the entry's `val` otherwise, and
`'?'` when there is no such entry. -/
def long_c (name : String) : Int :=
  match longopts.find? (fun o => o.name == name) with
  | some o => if o.flag then 0 else o.val
  | none => 63

/-- The kind of argument `shortopts` declares for the short spelling `-x`. -/
def short_has_arg (x : Char) : Option HasArg :=
  (short_table.find? (fun p => p.1 == x)).map (fun p => p.2)

/-- The kind of argument `longopts` declares for the long spelling `--name`. -/
def long_has_arg (name : String) : Option HasArg :=
  (longopts.find? (fun o => o.name == name)).map (fun o => o.has_arg)

/-- The pairs of a short and a long spelling of the CLI surface that
`parse_opts` has a `case` for. -/
def spelling_pairs : List (Char × String) :=
  [('H', "home"), ('h', "help"), ('J', "sysimage"), ('C', "cpu-target"),
   ('O', "optimize"), ('b', "build")]

/-- The trace of `getopt_long` for `julia -q -O file.jl`: `-q` is not an option
of `parse_opts` (`'?'`, `optind` 2), `-O` is (`optind` 3), `file.jl` ends the
scan (-1, `optind` still 3). -/
def interleaved_trace : List GetoptRet :=
  [⟨63, none, 2⟩, ⟨79, none, 3⟩]

/-- The argument vector of `julia -q -O file.jl`. -/
def interleaved_argv : List String := ["julia", "-q", "-O", "file.jl"]

/-! ## `exec_program`

The collaborators of `exec_program` (`jl_load`, `jl_stderr_obj`, `jl_show`,
`jl_static_show`, `jl_printf`) are the parameter `XEnv`.  An attempt is one trip
from the label `again`; attempts are numbered from 0. -/

/-- Entries of the log of `exec_program`: its calls (all output goes to
`JL_STDERR`, what is shown is `jl_exception_in_transit`), and `JL_CATCH` for the
entry into the handler. -/
inductive XCall where
  | jl_load (program : String)
  | jl_stderr_obj
  | jl_show (stream_obj : Nat)
  | jl_printf (text : String)
  | jl_static_show
  | JL_EH_POP
  | JL_CATCH
  deriving DecidableEq, Repr

/-- Behaviour of the collaborators of `exec_program`: `stderr_obj a i` is what
the `i`-th call of `jl_stderr_obj()` in attempt `a` returns (0 is `NULL`);
`throws a j` tells whether the `j`-th call inside `JL_TRY` in attempt `a` jumps
to `JL_CATCH`. -/
structure XEnv where
  stderr_obj : Nat → Nat → Nat
  throws : Nat → Nat → Bool

/-- State of `exec_program`: the number of the attempt, the local `err`, the
log. -/
structure XState where
  attempt : Nat
  err : Int
  log : List XCall
  deriving DecidableEq, Repr

/-- How the block of `JL_TRY` in `exec_program` ends: by `return v`, by running
to its end, or by a jump to `JL_CATCH`. -/
inductive XRes where
  | returned (v : Int) (s : XState)
  | completed (s : XState)
  | thrown (s : XState)
  deriving DecidableEq, Repr

/-- The end of the report: `jl_printf(JL_STDERR, "\n"); JL_EH_POP(); return 1;`
where the `jl_printf` is call `j` of the attempt. -/
def exec_report_end (env : XEnv) (j : Nat) (s : XState) : XRes :=
  let s1 := { s with log := s.log ++ [.jl_printf "\n"] }
  if env.throws s.attempt j then .thrown s1
  else .returned 1 { s1 with log := s1.log ++ [.JL_EH_POP] }

/-- The block of `JL_TRY` in `exec_program`. -/
def exec_try (env : XEnv) (program : String) (s : XState) : XRes :=
  if s.err ≠ 0 then
    let s1 := { s with log := s.log ++ [.jl_stderr_obj] }     -- errs = jl_stderr_obj()
    if env.throws s.attempt 0 then .thrown s1
    else if env.stderr_obj s.attempt 0 ≠ 0 then
      let s2 := { s1 with log := s1.log ++ [.jl_stderr_obj] } -- argument of jl_show
      if env.throws s.attempt 1 then .thrown s2
      else
        let s3 := { s2 with log := s2.log ++ [.jl_show (env.stderr_obj s.attempt 1)] }
        if env.throws s.attempt 2 then .thrown s3
        else exec_report_end env 3 s3
    else
      let s2 := { s1 with log := s1.log ++ [.jl_printf "error during bootstrap: "] }
      if env.throws s.attempt 1 then .thrown s2
      else
        let s3 := { s2 with log := s2.log ++ [.jl_static_show] }
        if env.throws s.attempt 2 then .thrown s3
        else exec_report_end env 3 s3
  else
    let s1 := { s with log := s.log ++ [.jl_load program] }
    if env.throws s.attempt 0 then .thrown s1 else .completed s1

/-- The block of `JL_CATCH` in `exec_program`: `err = 1; goto again;`. -/
def exec_catch (s : XState) : XState :=
  { s with log := s.log ++ [.JL_CATCH], err := 1, attempt := s.attempt + 1 }

/-- The function `exec_program` from the label `again` on: `some (v, s)` when it
returns `v` within `fuel` attempts. -/
def exec_from (env : XEnv) (program : String) : Nat → XState → Option (Int × XState)
  | 0, _ => none
  | fuel + 1, s =>
    match exec_try env program s with
    | .returned v s1 => some (v, s1)
    | .completed s1 => some (0, s1)
    | .thrown s1 => exec_from env program fuel (exec_catch s1)

/-- The function `exec_program`. -/
def exec_program (env : XEnv) (program : String) (fuel : Nat) : Option (Int × XState) :=
  exec_from env program fuel ⟨0, 0, []⟩

/-- The calls of a report attempt `a` in which no call jumps. -/
def exec_report_calls (env : XEnv) (a : Nat) : List XCall :=
  (if env.stderr_obj a 0 ≠ 0 then
    [.jl_stderr_obj, .jl_stderr_obj, .jl_show (env.stderr_obj a 1)]
   else [.jl_stderr_obj, .jl_printf "error during bootstrap: ", .jl_static_show])
  ++ [.jl_printf "\n", .JL_EH_POP]

/-- Whether some call of the report jumps when attempt `a` is a report
attempt. -/
def report_throws (env : XEnv) (a : Nat) : Bool :=
  match exec_try env "" ⟨a, 1, []⟩ with
  | .thrown _ => true
  | _ => false

/-- A sample behaviour: `jl_load` raises, the report goes through `jl_show`
without a jump. -/
def load_fails_env : XEnv :=
  { stderr_obj := fun _ _ => 1, throws := fun a j => a == 0 && j == 0 }

/-- A sample behaviour: `jl_load` raises, `jl_show` raises in the first report
attempt (call 2 of attempt 1) and not in the second. -/
def show_fails_once_env : XEnv :=
  { stderr_obj := fun _ _ => 1,
    throws := fun a j => (a == 0 && j == 0) || (a == 1 && j == 2) }

/-! ## `true_main` and `main` -/

/-- The runtime as `true_main` finds it: whether `jl_base_module` is set, the
elements of the global `ARGS` of the base module (`none` when `jl_get_global`
returns `NULL`), whether `_start` is bound there, and whether applying it
returns. -/
structure Runtime where
  jl_base_module : Bool
  ARGS : Option (List String)
  start_client : Bool
  start_returns : Bool
  deriving DecidableEq, Repr

/-- What `true_main` ran, in order: the filling of `ARGS`, the entry symbol,
`exec_program`, the interactive loop. -/
inductive Stage where
  | set_ARGS (args : List String)
  | jl_apply_start_client
  | exec_program (program : String)
  | interactive_loop
  deriving DecidableEq, Repr

/-- How `true_main` ends: `return v`, no return (a stage that does not come
back within the fuel), or the `assert` on `ARGS` fails. -/
inductive TOutcome where
  | returned (v : Int)
  | no_return
  | assert_failed
  deriving DecidableEq, Repr

structure TResult where
  outcome : TOutcome
  stages : List Stage
  deriving DecidableEq, Repr

/-- The part of `true_main` after the filling of `ARGS`. -/
def true_main_dispatch (rt : Runtime) (xenv : XEnv) (env : Env) (fuel : Nat)
    (argv : List String) (done : List Stage) : TResult :=
  -- start_client = jl_base_module ? jl_get_global(jl_base_module, jl_symbol("_start")) : NULL
  if rt.jl_base_module && rt.start_client then
    if rt.start_returns then ⟨.returned 0, done ++ [.jl_apply_start_client]⟩
    else ⟨.no_return, done ++ [.jl_apply_start_client]⟩
  else
    match argv with
    | a :: _ =>
      if a ≠ "-" then                                   -- strcmp(argv[0], "-")
        match exec_program xenv a fuel with
        | some (v, _) => ⟨.returned v, done ++ [.exec_program a]⟩
        | none => ⟨.no_return, done ++ [.exec_program a]⟩
      else
        match interactive env fuel with
        | some (v, _) => ⟨.returned v, done ++ [.interactive_loop]⟩
        | none => ⟨.no_return, done ++ [.interactive_loop]⟩
    | [] =>
      match interactive env fuel with
      | some (v, _) => ⟨.returned v, done ++ [.interactive_loop]⟩
      | none => ⟨.no_return, done ++ [.interactive_loop]⟩

/-- The function `true_main`, given the residual arguments (`argc` is their
number). -/
def true_main (rt : Runtime) (xenv : XEnv) (env : Env) (fuel : Nat) (argv : List String) :
    TResult :=
  if rt.jl_base_module then
    -- args = ARGS, or a fresh empty array when ARGS is not bound
    let args := rt.ARGS.getD []
    if args.length ≠ 0 then ⟨.assert_failed, []⟩        -- assert(jl_array_len(args) == 0)
    else true_main_dispatch rt xenv env fuel argv [.set_ARGS (args ++ argv)]
  else true_main_dispatch rt xenv env fuel argv []

/-- The first stage of `true_main`: the filling of `ARGS`, when the base module
is set. -/
def args_stage (rt : Runtime) (argv : List String) : List Stage :=
  if rt.jl_base_module then [.set_ARGS argv] else []

/-- How a stage that may not return within the fuel ends. -/
def stage_outcome {σ : Type} (r : Option (Int × σ)) : TOutcome :=
  match r with
  | some (v, _) => .returned v
  | none => .no_return

/-- Entries of the log of `main`. -/
inductive MCall where
  | libsupport_init
  | parse_opts
  | jl_lisp_prompt
  | julia_init (cwd : Bool)
  | true_main (argv : List String)
  | jl_atexit_hook
  deriving DecidableEq, Repr

/-- How `main` ends: `return v`, `exit(n)` inside `parse_opts`, no return, a
failed `assert`, or undefined behaviour inside `parse_opts`. -/
inductive MOutcome where
  | returned (v : Int)
  | exited (status : Int)
  | no_return
  | assert_failed
  | undefined
  deriving DecidableEq, Repr

structure MResult where
  outcome : MOutcome
  calls : List MCall
  deriving DecidableEq, Repr

/-- The function `main`: `argv` is the argument vector, `rets` and `endind` what
`getopt_long` hands back for it, `st` the globals at program start, `rt` the
runtime as `julia_init` sets it up.  `julia_init` is given `JL_IMAGE_CWD` (here
`true`) when `imagepathspecified` is set, `JL_IMAGE_JULIA_HOME` otherwise. -/
def main (k : JuliaH) (rt : Runtime) (xenv : XEnv) (env : Env) (fuel : Nat)
    (argv : List String) (rets : List GetoptRet) (endind : Int) (st : State) : MResult :=
  match parse_opts k rets endind st with
  | .exit n _ => ⟨.exited n, [.libsupport_init, .parse_opts]⟩
  | .undefined => ⟨.undefined, [.libsupport_init, .parse_opts]⟩
  | .cont st1 =>
    if st1.lisp_prompt ≠ 0 then
      ⟨.returned 0, [.libsupport_init, .parse_opts, .jl_lisp_prompt]⟩
    else
      let args := residual argv st1
      let pre : List MCall :=
        [.libsupport_init, .parse_opts, .julia_init (decide (st1.imagepathspecified ≠ 0)),
         .true_main args]
      match (true_main rt xenv env fuel args).outcome with
      | .returned v => ⟨.returned v, pre ++ [.jl_atexit_hook]⟩
      | .no_return => ⟨.no_return, pre⟩
      | .assert_failed => ⟨.assert_failed, pre⟩

/-- A sample runtime: base module set, `ARGS` not yet bound, no `_start`. -/
def bare_runtime : Runtime :=
  { jl_base_module := true, ARGS := none, start_client := false, start_returns := true }

/-- A sample behaviour of the collaborators of `exec_program`: nothing jumps. -/
def calm_xenv : XEnv :=
  { stderr_obj := fun _ _ => 1, throws := fun _ _ => false }

end Repl

namespace Repl

/-! ## Theorems about `parse_opts` -/

theorem short_table_eq : short_table =
    [('H', .required_argument), ('h', .no_argument), ('J', .required_argument),
     ('C', .required_argument), ('O', .no_argument)] := by
  simp [short_table, shortopts, short_specs]

/-- One turn of the loop on a result other than -1. -/
theorem parse_loop_cons (k : JuliaH) (endind : Int) (r : GetoptRet) (rs : List GetoptRet)
    (st : State) (hr : r.c ≠ -1) :
    parse_loop k endind (r :: rs) st =
      match switch_c k r.c r.optarg (getopt_long r st) with
      | .cont st1 => parse_loop k endind rs st1
      | .exit n st1 => .exit n st1
      | .undefined => .undefined := by
  simp [parse_loop, hr]

theorem parse_loop_stop (k : JuliaH) (endind : Int) (r : GetoptRet) (rs : List GetoptRet)
    (st : State) (hr : r.c = -1) :
    parse_loop k endind (r :: rs) st = .cont { st with optind := r.optind } := by
  simp [parse_loop, hr]

theorem processed_cons_stop (r : GetoptRet) (rs : List GetoptRet) (hr : r.c = -1) :
    processed (r :: rs) = [] := by
  simp [processed, hr]

theorem processed_cons (r : GetoptRet) (rs : List GetoptRet) (hr : r.c ≠ -1) :
    processed (r :: rs) = r :: processed rs := by
  simp [processed, hr]

/-- The shapes of what `getopt_long` returns for the tables of `parse_opts`. -/
theorem returnable_cases (r : GetoptRet) (h : returnable r = true) :
    r.c = 63 ∨ r.c = 0 ∨ r.c = 104 ∨ r.c = 79 ∨ r.c = 99 ∨
    ((r.c = 72 ∨ r.c = 98 ∨ r.c = 74 ∨ r.c = 67 ∨ r.c = 109 ∨ r.c = 300 ∨ r.c = 301 ∨
      r.c = 302 ∨ r.c = 303 ∨ r.c = 304) ∧ ∃ v, r.optarg = some v) := by
  obtain ⟨c, optarg, oi⟩ := r
  have hH : ('H'.toNat : Int) = 72 := by decide
  have hh : ('h'.toNat : Int) = 104 := by decide
  have hJ : ('J'.toNat : Int) = 74 := by decide
  have hC : ('C'.toNat : Int) = 67 := by decide
  have hO : ('O'.toNat : Int) = 79 := by decide
  simp only [returnable, longopts, short_table_eq, List.any_cons, List.any_nil, arg_ok,
    Bool.or_eq_true, Bool.and_eq_true, beq_iff_eq, Bool.or_false, Bool.and_true,
    hH, hh, hJ, hC, hO] at h
  cases optarg with
  | none =>
    simp at h
    dsimp only
    omega
  | some v =>
    simp at h
    simp only [Option.some.injEq, exists_eq', and_true]
    omega

/-- Every `int` is one of the `case` labels or goes to `default`. -/
theorem label_cases (c : Int) :
    c = 0 ∨ c = 63 ∨ c = 72 ∨ c = 98 ∨ c = 74 ∨ c = 67 ∨ c = 104 ∨ c = 79 ∨ c = 99 ∨
    c = 109 ∨ c = 300 ∨ c = 301 ∨ c = 302 ∨ c = 303 ∨ c = 304 ∨
    (c ≠ 0 ∧ c ≠ 63 ∧ c ≠ 72 ∧ c ≠ 98 ∧ c ≠ 74 ∧ c ≠ 67 ∧ c ≠ 104 ∧ c ≠ 79 ∧ c ≠ 99 ∧
     c ≠ 109 ∧ c ≠ 300 ∧ c ≠ 301 ∧ c ≠ 302 ∧ c ≠ 303 ∧ c ≠ 304) := by
  omega

section arms

variable (k : JuliaH) (optarg : Option String) (st : State)

theorem switch_c_0 : switch_c k 0 optarg st = .cont st := by
  simp [switch_c]

theorem switch_c_63 : switch_c k 63 optarg st =
    .cont { st with skip := if st.optind ≠ st.lastind then st.skip + 1 else st.skip,
                    lastind := st.optind } := by
  simp [switch_c]

theorem switch_c_72 : switch_c k 72 optarg st =
    match optarg with
    | none => .undefined
    | some v => .cont { st with jl_compileropts := { st.jl_compileropts with julia_home := some v } } := by
  simp [switch_c]

theorem switch_c_98 : switch_c k 98 optarg st =
    match optarg with
    | none => .undefined
    | some v =>
      if st.imagepathspecified = 0 then
        .cont { st with jl_compileropts :=
                  { st.jl_compileropts with build_path := some v, image_file := none } }
      else .cont { st with jl_compileropts := { st.jl_compileropts with build_path := some v } } := by
  simp [switch_c]

theorem switch_c_74 : switch_c k 74 optarg st =
    match optarg with
    | none => .undefined
    | some v =>
      .cont { st with jl_compileropts := { st.jl_compileropts with image_file := some v },
                      imagepathspecified := 1 } := by
  simp [switch_c]

theorem switch_c_67 : switch_c k 67 optarg st =
    match optarg with
    | none => .undefined
    | some v => .cont { st with jl_compileropts := { st.jl_compileropts with cpu_target := some v } } := by
  simp [switch_c]

theorem switch_c_104 : switch_c k 104 optarg st =
    .exit 0 { st with ios_stdout := st.ios_stdout ++ [usage ++ opts] } := by
  simp [switch_c]

theorem switch_c_79 : switch_c k 79 optarg st =
    .cont { st with jl_compileropts := { st.jl_compileropts with opt_level := 1 } } := by
  simp [switch_c]

theorem switch_c_99 : switch_c k 99 optarg st =
    match optarg with
    | some v =>
      if v = "user" then .cont { st with codecov := k.JL_LOG_USER }
      else if v = "all" then .cont { st with codecov := k.JL_LOG_ALL }
      else if v = "none" then .cont { st with codecov := k.JL_LOG_NONE }
      else .cont st
    | none => .cont { st with codecov := k.JL_LOG_USER } := by
  simp [switch_c]

theorem switch_c_109 : switch_c k 109 optarg st =
    match optarg with
    | some v =>
      if v = "user" then .cont { st with malloclog := k.JL_LOG_USER }
      else if v = "all" then .cont { st with malloclog := k.JL_LOG_ALL }
      else if v = "none" then .cont { st with malloclog := k.JL_LOG_NONE }
      else .cont st
    | none => .undefined := by
  cases optarg <;> simp [switch_c, case_300]

theorem switch_c_300 : switch_c k 300 optarg st = case_300 k optarg st := by
  simp [switch_c]

theorem switch_c_301 : switch_c k 301 optarg st =
    match optarg with
    | none => .undefined
    | some v =>
      if v = "32" then .cont { st with jl_compileropts := { st.jl_compileropts with int_literals := 32 } }
      else if v = "64" then .cont { st with jl_compileropts := { st.jl_compileropts with int_literals := 64 } }
      else .exit 1 { st with ios_stderr :=
                       st.ios_stderr ++ [fmt_paren "julia: invalid integer literal size " v] } := by
  simp [switch_c]

theorem switch_c_302 : switch_c k 302 optarg st =
    match optarg with
    | none => .undefined
    | some v =>
      if v = "yes" then
        .cont { st with jl_compileropts :=
                  { st.jl_compileropts with dumpbitcode := k.JL_COMPILEROPT_DUMPBITCODE_ON } }
      else if v = "no" then
        .cont { st with jl_compileropts :=
                  { st.jl_compileropts with dumpbitcode := k.JL_COMPILEROPT_DUMPBITCODE_OFF } }
      else .cont st := by
  simp [switch_c]

theorem switch_c_303 : switch_c k 303 optarg st =
    match optarg with
    | none => .undefined
    | some v =>
      if v = "yes" then .cont { st with jl_compileropts := { st.jl_compileropts with compile_enabled := 1 } }
      else if v = "no" then .cont { st with jl_compileropts := { st.jl_compileropts with compile_enabled := 0 } }
      else if v = "all" then .cont { st with jl_compileropts := { st.jl_compileropts with compile_enabled := 2 } }
      else .exit 1 { st with ios_stderr :=
                       st.ios_stderr ++ [fmt_paren "julia: invalid argument to --compile " v] } := by
  simp [switch_c]

theorem switch_c_304 : switch_c k 304 optarg st =
    match optarg with
    | none => .undefined
    | some v =>
      if v = "yes" then .cont { st with jl_compileropts := { st.jl_compileropts with depwarn := 1 } }
      else if v = "no" then .cont { st with jl_compileropts := { st.jl_compileropts with depwarn := 0 } }
      else .exit 1 { st with ios_stderr :=
                       st.ios_stderr ++ [fmt_paren "julia: invalid argument to --depwarn " v] } := by
  simp [switch_c]

theorem switch_c_default (c : Int)
    (h : c ≠ 0 ∧ c ≠ 63 ∧ c ≠ 72 ∧ c ≠ 98 ∧ c ≠ 74 ∧ c ≠ 67 ∧ c ≠ 104 ∧ c ≠ 79 ∧ c ≠ 99 ∧
         c ≠ 109 ∧ c ≠ 300 ∧ c ≠ 301 ∧ c ≠ 302 ∧ c ≠ 303 ∧ c ≠ 304) :
    switch_c k c optarg st =
      .exit 1 { st with ios_stderr :=
                  st.ios_stderr ++ [fmt_unhandled c, "This is a bug, please report it.\n"] } := by
  obtain ⟨h1, h2, h3, h4, h5, h6, h7, h8, h9, h10, h11, h12, h13, h14, h15⟩ := h
  simp only [switch_c, h1, h2, h3, h4, h5, h6, h7, h8, h9, h10, h11, h12, h13, h14, h15, if_false]

end arms

/-- What an arm that continues does to the image file and to
`imagepathspecified`. -/
theorem switch_c_image (k : JuliaH) (c : Int) (optarg : Option String) (st st1 : State)
    (h : switch_c k c optarg st = .cont st1) :
    (c = 74 → ∃ v, optarg = some v ∧ st1.jl_compileropts.image_file = some v ∧
        st1.imagepathspecified = 1) ∧
    (c = 98 → st1.imagepathspecified = st.imagepathspecified ∧
        st1.jl_compileropts.image_file =
          if st.imagepathspecified = 0 then none else st.jl_compileropts.image_file) ∧
    (c ≠ 74 → c ≠ 98 → st1.imagepathspecified = st.imagepathspecified ∧
        st1.jl_compileropts.image_file = st.jl_compileropts.image_file) := by
  rcases label_cases c with hc | hc | hc | hc | hc | hc | hc | hc | hc | hc | hc | hc | hc | hc | hc | hc
  · subst hc; rw [switch_c_0] at h; cases h; simp
  · subst hc; rw [switch_c_63] at h; cases h; simp
  · subst hc; rw [switch_c_72] at h
    cases optarg <;> simp at h; subst h; simp
  · subst hc; rw [switch_c_98] at h
    cases optarg <;> simp at h
    split_ifs at h with q <;> cases h <;> simp [q]
  · subst hc; rw [switch_c_74] at h
    cases optarg <;> simp at h; subst h; simp
  · subst hc; rw [switch_c_67] at h
    cases optarg <;> simp at h; subst h; simp
  · subst hc; rw [switch_c_104] at h; cases h
  · subst hc; rw [switch_c_79] at h; cases h; simp
  · subst hc; rw [switch_c_99] at h
    cases optarg <;> simp at h
    · subst h; simp
    · split_ifs at h <;> cases h <;> simp
  · subst hc; rw [switch_c_109] at h
    cases optarg <;> simp at h
    split_ifs at h <;> cases h <;> simp
  · subst hc; rw [switch_c_300] at h
    cases optarg <;> simp [case_300] at h
    split_ifs at h <;> cases h <;> simp
  · subst hc; rw [switch_c_301] at h
    cases optarg <;> simp at h
    split_ifs at h <;> cases h <;> simp
  · subst hc; rw [switch_c_302] at h
    cases optarg <;> simp at h
    split_ifs at h <;> cases h <;> simp
  · subst hc; rw [switch_c_303] at h
    cases optarg <;> simp at h
    split_ifs at h <;> cases h <;> simp
  · subst hc; rw [switch_c_304] at h
    cases optarg <;> simp at h
    split_ifs at h <;> cases h <;> simp
  · rw [switch_c_default k optarg st c hc] at h; cases h

theorem getLast?_cons_eq {α : Type} (a : α) (l : List α) :
    (a :: l).getLast? = match l.getLast? with
      | some b => some b
      | none => some a := by
  cases l with
  | nil => simp
  | cons b t =>
    rw [List.getLast?_cons_cons]
    cases h : (b :: t).getLast? with
    | none => simp at h
    | some x => rfl

theorem getopt_long_image (r : GetoptRet) (st : State) :
    (getopt_long r st).imagepathspecified = st.imagepathspecified ∧
    (getopt_long r st).jl_compileropts = st.jl_compileropts ∧
    (getopt_long r st).codecov = st.codecov ∧
    (getopt_long r st).malloclog = st.malloclog := by
  simp [getopt_long]

/-- The image file and `imagepathspecified` at the end of the loop. -/
theorem parse_loop_image (k : JuliaH) (endind : Int) (rets : List GetoptRet) :
    ∀ st st1 : State, parse_loop k endind rets st = .cont st1 →
      st1.jl_compileropts.image_file =
        match (sysimage_args (processed rets)).getLast? with
        | some v => some v
        | none =>
          if has_build (processed rets) = true ∧ st.imagepathspecified = 0 then none
          else st.jl_compileropts.image_file := by
  induction rets with
  | nil =>
    intro st st1 h
    simp [parse_loop] at h
    subst h
    simp [processed, sysimage_args, has_build]
  | cons r rs ih =>
    intro st st1 h
    by_cases hr : r.c = -1
    · rw [parse_loop_stop k endind r rs st hr] at h
      cases h
      simp [processed_cons_stop r rs hr, sysimage_args, has_build]
    · rw [parse_loop_cons k endind r rs st hr] at h
      rw [processed_cons r rs hr]
      cases hs : switch_c k r.c r.optarg (getopt_long r st) with
      | exit n s2 => rw [hs] at h; cases h
      | undefined => rw [hs] at h; cases h
      | cont s2 =>
        rw [hs] at h
        have hi := ih s2 st1 h
        obtain ⟨hJ, hb, ho⟩ := switch_c_image k r.c r.optarg _ s2 hs
        obtain ⟨g1, g2, -, -⟩ := getopt_long_image r st
        rw [g1, g2] at hb ho
        by_cases c74 : r.c = 74
        · obtain ⟨v, hv, hv1, hv2⟩ := hJ c74
          have e : sysimage_args (r :: processed rs) = v :: sysimage_args (processed rs) := by
            simp [sysimage_args, c74, hv]
          rw [e, getLast?_cons_eq, hi]
          cases (sysimage_args (processed rs)).getLast? with
          | some w => rfl
          | none => simp [hv1, hv2]
        · have e : sysimage_args (r :: processed rs) = sysimage_args (processed rs) := by
            simp [sysimage_args, c74]
          rw [e, hi]
          cases (sysimage_args (processed rs)).getLast? with
          | some w => rfl
          | none =>
            by_cases c98 : r.c = 98
            · obtain ⟨q1, q2⟩ := hb c98
              simp only [has_build, List.any_cons, c98, beq_self_eq_true, Bool.true_or, true_and,
                q1, q2]
              by_cases z : st.imagepathspecified = 0 <;> simp [z]
            · obtain ⟨q1, q2⟩ := ho c74 c98
              simp [has_build, List.any_cons, c98, q1, q2]

/-- What an arm that continues does to `codecov`. -/
theorem switch_c_codecov (k : JuliaH) (c : Int) (optarg : Option String) (st st1 : State)
    (h : switch_c k c optarg st = .cont st1) :
    st1.codecov = if c = 99 then coverage_rule k st.codecov optarg else st.codecov := by
  rcases label_cases c with hc | hc | hc | hc | hc | hc | hc | hc | hc | hc | hc | hc | hc | hc | hc | hc
  · subst hc; rw [switch_c_0] at h; cases h; simp
  · subst hc; rw [switch_c_63] at h; cases h; simp
  · subst hc; rw [switch_c_72] at h
    cases optarg <;> simp at h; subst h; simp
  · subst hc; rw [switch_c_98] at h
    cases optarg <;> simp at h
    split_ifs at h with q <;> cases h <;> simp
  · subst hc; rw [switch_c_74] at h
    cases optarg <;> simp at h; subst h; simp
  · subst hc; rw [switch_c_67] at h
    cases optarg <;> simp at h; subst h; simp
  · subst hc; rw [switch_c_104] at h; cases h
  · subst hc; rw [switch_c_79] at h; cases h; simp
  · subst hc; rw [switch_c_99] at h
    cases optarg with
    | none => simp at h; subst h; simp [coverage_rule]
    | some v =>
      simp only at h
      split_ifs at h <;> cases h <;> simp_all [coverage_rule]
  · subst hc; rw [switch_c_109] at h
    cases optarg <;> simp at h
    split_ifs at h <;> cases h <;> simp
  · subst hc; rw [switch_c_300] at h
    cases optarg <;> simp [case_300] at h
    split_ifs at h <;> cases h <;> simp
  · subst hc; rw [switch_c_301] at h
    cases optarg <;> simp at h
    split_ifs at h <;> cases h <;> simp
  · subst hc; rw [switch_c_302] at h
    cases optarg <;> simp at h
    split_ifs at h <;> cases h <;> simp
  · subst hc; rw [switch_c_303] at h
    cases optarg <;> simp at h
    split_ifs at h <;> cases h <;> simp
  · subst hc; rw [switch_c_304] at h
    cases optarg <;> simp at h
    split_ifs at h <;> cases h <;> simp
  · rw [switch_c_default k optarg st c hc] at h; cases h

/-- The static `codecov` at the end of the loop. -/
theorem parse_loop_codecov (k : JuliaH) (endind : Int) (rets : List GetoptRet) :
    ∀ st st1 : State, parse_loop k endind rets st = .cont st1 →
      st1.codecov = (code_coverage_args (processed rets)).foldl (coverage_rule k) st.codecov := by
  induction rets with
  | nil =>
    intro st st1 h
    simp [parse_loop] at h
    subst h
    simp [processed, code_coverage_args]
  | cons r rs ih =>
    intro st st1 h
    by_cases hr : r.c = -1
    · rw [parse_loop_stop k endind r rs st hr] at h
      cases h
      simp [processed_cons_stop r rs hr, code_coverage_args]
    · rw [parse_loop_cons k endind r rs st hr] at h
      rw [processed_cons r rs hr]
      cases hs : switch_c k r.c r.optarg (getopt_long r st) with
      | exit n s2 => rw [hs] at h; cases h
      | undefined => rw [hs] at h; cases h
      | cont s2 =>
        rw [hs] at h
        have hi := ih s2 st1 h
        have hc := switch_c_codecov k r.c r.optarg _ s2 hs
        rw [(getopt_long_image r st).2.2.1] at hc
        rw [hi, hc]
        by_cases c99 : r.c = 99 <;> simp [code_coverage_args, c99]

/-- How an arm ends on a result of `getopt_long`: help exits with 0, an invalid
value exits with 1, everything else continues. -/
theorem switch_c_returnable (k : JuliaH) (r : GetoptRet) (st : State)
    (hr : returnable r = true) :
    (is_help r = true → ∃ s1, switch_c k r.c r.optarg st = .exit 0 s1) ∧
    (is_invalid r = true → ∃ s1, switch_c k r.c r.optarg st = .exit 1 s1) ∧
    (is_help r = false → is_invalid r = false → ∃ s1, switch_c k r.c r.optarg st = .cont s1) := by
  have hcases := returnable_cases r hr
  obtain ⟨c, optarg, oi⟩ := r
  dsimp only at hcases ⊢
  rcases hcases with hc | hc | hc | hc | hc | ⟨hc, v, hv⟩
  · subst hc; rw [switch_c_63]; cases optarg <;> simp [is_help, is_invalid]
  · subst hc; rw [switch_c_0]; cases optarg <;> simp [is_help, is_invalid]
  · subst hc; rw [switch_c_104]; cases optarg <;> simp [is_help, is_invalid]
  · subst hc; rw [switch_c_79]; cases optarg <;> simp [is_help, is_invalid]
  · subst hc; rw [switch_c_99]
    cases optarg with
    | none => simp [is_help, is_invalid]
    | some v => simp only [is_help, is_invalid]; split_ifs <;> simp
  · subst hv
    rcases hc with hc | hc | hc | hc | hc | hc | hc | hc | hc | hc
    · subst hc; rw [switch_c_72]; simp [is_help, is_invalid]
    · subst hc; rw [switch_c_98]; simp only [is_help, is_invalid]; split_ifs <;> simp
    · subst hc; rw [switch_c_74]; simp [is_help, is_invalid]
    · subst hc; rw [switch_c_67]; simp [is_help, is_invalid]
    · subst hc; rw [switch_c_109]; simp only [is_help, is_invalid]; split_ifs <;> simp
    · subst hc; rw [switch_c_300]; simp only [is_help, is_invalid, case_300]; split_ifs <;> simp
    · subst hc; rw [switch_c_301]; simp only [is_help, is_invalid]; split_ifs <;> simp_all
    · subst hc; rw [switch_c_302]; simp only [is_help, is_invalid]; split_ifs <;> simp
    · subst hc; rw [switch_c_303]; simp only [is_help, is_invalid]; split_ifs <;> simp_all
    · subst hc; rw [switch_c_304]; simp only [is_help, is_invalid]; split_ifs <;> simp_all

theorem returnable_ne (r : GetoptRet) (hr : returnable r = true) : r.c ≠ -1 := by
  have h := returnable_cases r hr
  omega

/-- How the loop ends on results of `getopt_long`. -/
theorem parse_loop_returnable (k : JuliaH) (endind : Int) (rets : List GetoptRet) :
    ∀ st : State, (∀ r ∈ rets, returnable r = true) →
      (first_fatal rets = none → ∃ s1, parse_loop k endind rets st = .cont s1) ∧
      (∀ r, first_fatal rets = some r → is_help r = true →
          ∃ s1, parse_loop k endind rets st = .exit 0 s1) ∧
      (∀ r, first_fatal rets = some r → is_help r = false →
          ∃ s1, parse_loop k endind rets st = .exit 1 s1) := by
  induction rets with
  | nil =>
    intro st _
    simp [parse_loop, first_fatal]
  | cons r rs ih =>
    intro st hall
    have hr : returnable r = true := hall r (List.mem_cons_self _ _)
    have hrs : ∀ q ∈ rs, returnable q = true := fun q hq => hall q (List.mem_cons_of_mem _ hq)
    obtain ⟨a1, a2, a3⟩ := switch_c_returnable k r (getopt_long r st) hr
    rw [parse_loop_cons k endind r rs st (returnable_ne r hr)]
    by_cases hf : (is_help r || is_invalid r) = true
    · have e : first_fatal (r :: rs) = some r := by
        simp only [first_fatal, List.find?_cons, hf]
      rw [e]
      refine ⟨by simp, ?_, ?_⟩
      · intro q hq hh
        cases hq
        obtain ⟨s1, hs1⟩ := a1 hh
        exact ⟨s1, by rw [hs1]⟩
      · intro q hq hh
        cases hq
        have hi : is_invalid r = true := by simpa [hh] using hf
        obtain ⟨s1, hs1⟩ := a2 hi
        exact ⟨s1, by rw [hs1]⟩
    · have hf2 : (is_help r || is_invalid r) = false := by simpa using hf
      have e : first_fatal (r :: rs) = first_fatal rs := by
        simp only [first_fatal, List.find?_cons, hf2]
      rw [e]
      have hh : is_help r = false := by
        cases h1 : is_help r <;> simp_all
      have hi : is_invalid r = false := by
        cases h1 : is_invalid r <;> simp_all
      obtain ⟨s1, hs1⟩ := a3 hh hi
      rw [hs1]
      exact ih s1 hrs

theorem parse_opts_cont (k : JuliaH) (rets : List GetoptRet) (endind : Int) (st st1 : State)
    (h : parse_opts k rets endind st = .cont st1) :
    ∃ s, parse_loop k endind rets { st with skip := 0, lastind := st.optind } = .cont s ∧
      st1 = parse_finish s := by
  unfold parse_opts at h
  cases hl : parse_loop k endind rets { st with skip := 0, lastind := st.optind } with
  | cont s => rw [hl] at h; cases h; exact ⟨s, rfl, rfl⟩
  | exit n s => rw [hl] at h; cases h
  | undefined => rw [hl] at h; cases h

/-- C1: for every sequence of occurrences that `parse_opts` processes without
exiting, started with `imagepathspecified = 0`, the final `image_file` is the
argument of the last `--sysimage`/`-J` occurrence if there is one, otherwise
`NULL` if there is a `--build` occurrence, otherwise the default it had.  Hence
two runs with the same `--sysimage` occurrences and the same presence of
`--build` end with the same `image_file`, wherever `--build` stands. -/
theorem image_file_final (k : JuliaH) (rets : List GetoptRet) (endind : Int) (st st1 : State)
    (h0 : st.imagepathspecified = 0)
    (h : parse_opts k rets endind st = .cont st1) :
    st1.jl_compileropts.image_file =
      image_file_rule st.jl_compileropts.image_file (processed rets) ∧
    ∀ (rets2 : List GetoptRet) (endind2 : Int) (st2 : State),
      parse_opts k rets2 endind2 st = .cont st2 →
      sysimage_args (processed rets2) = sysimage_args (processed rets) →
      has_build (processed rets2) = has_build (processed rets) →
      st2.jl_compileropts.image_file = st1.jl_compileropts.image_file := by
  have key : ∀ (rs : List GetoptRet) (e : Int) (s1 : State),
      parse_opts k rs e st = .cont s1 →
      s1.jl_compileropts.image_file =
        image_file_rule st.jl_compileropts.image_file (processed rs) := by
    intro rs e s1 hp
    obtain ⟨s, hs, rfl⟩ := parse_opts_cont k rs e st s1 hp
    have hl := parse_loop_image k e rs _ s hs
    simp only [parse_finish, image_file_rule]
    rw [hl]
    simp [h0]
  refine ⟨key rets endind st1 h, ?_⟩
  intro rets2 endind2 st2 h2 ha hb
  rw [key rets2 endind2 st2 h2, key rets endind st1 h]
  simp only [image_file_rule, ha, hb]

theorem image_file_final_witness :
    (initial julia_h sample_opts 6).imagepathspecified = 0 ∧
    (∃ s, parse_opts julia_h [⟨98, some "out", 3⟩, ⟨74, some "my.ji", 5⟩] 5
        (initial julia_h sample_opts 6) = .cont s ∧
      s.jl_compileropts.image_file = some "my.ji") ∧
    (∃ s, parse_opts julia_h [⟨74, some "my.ji", 3⟩, ⟨98, some "out", 5⟩] 5
        (initial julia_h sample_opts 6) = .cont s ∧
      s.jl_compileropts.image_file = some "my.ji") :=
  ⟨rfl,
   ⟨_, rfl, (image_file_final julia_h [⟨98, some "out", 3⟩, ⟨74, some "my.ji", 5⟩] 5
      (initial julia_h sample_opts 6) _ rfl rfl).1.trans (by decide)⟩,
   ⟨_, rfl, (image_file_final julia_h [⟨74, some "my.ji", 3⟩, ⟨98, some "out", 5⟩] 5
      (initial julia_h sample_opts 6) _ rfl rfl).1.trans (by decide)⟩⟩

/-- C7: an `--int-literals` occurrence with argument `v` ends `parse_opts` with
`exit(1)`, after a diagnostic on `ios_stderr` that contains `v`, if and only if
`v` is neither `"32"` nor `"64"`; no other status is possible; for `"32"` and
`"64"` the loop goes on to the next occurrence with `int_literals` set to 32 and
64. -/
theorem int_literals_occurrence (k : JuliaH) (v : String) (st : State) :
    ((∃ s1, switch_c k 301 (some v) st = .exit 1 s1 ∧
        ∃ pre post, s1.ios_stderr = st.ios_stderr ++ [pre ++ v ++ post]) ↔
      (v ≠ "32" ∧ v ≠ "64")) ∧
    (∀ n s1, switch_c k 301 (some v) st = .exit n s1 → n = 1 ∧ v ≠ "32" ∧ v ≠ "64") ∧
    (∀ (oi endind : Int) (rs : List GetoptRet), v ≠ "32" → v ≠ "64" →
      ∃ s1, parse_loop k endind (⟨301, some v, oi⟩ :: rs) st = .exit 1 s1) ∧
    (∀ (oi endind : Int) (rs : List GetoptRet), v = "32" →
      parse_loop k endind (⟨301, some v, oi⟩ :: rs) st =
        parse_loop k endind rs
          { getopt_long ⟨301, some v, oi⟩ st with jl_compileropts :=
              { st.jl_compileropts with int_literals := 32 } }) ∧
    (∀ (oi endind : Int) (rs : List GetoptRet), v = "64" →
      parse_loop k endind (⟨301, some v, oi⟩ :: rs) st =
        parse_loop k endind rs
          { getopt_long ⟨301, some v, oi⟩ st with jl_compileropts :=
              { st.jl_compileropts with int_literals := 64 } }) := by
  refine ⟨?_, ?_, ?_, ?_, ?_⟩
  · rw [switch_c_301]
    constructor
    · rintro ⟨s1, h, -⟩
      dsimp only at h
      split_ifs at h with a b
      exact ⟨a, b⟩
    · rintro ⟨a, b⟩
      refine ⟨{ st with ios_stderr :=
                  st.ios_stderr ++ [fmt_paren "julia: invalid integer literal size " v] },
        by simp [a, b], "julia: invalid integer literal size (", ")\n", ?_⟩
      simp [fmt_paren, String.append_assoc]
  · intro n s1 h
    rw [switch_c_301] at h
    dsimp only at h
    split_ifs at h with a b
    cases h
    exact ⟨rfl, a, b⟩
  · intro oi endind rs a b
    rw [parse_loop_cons _ _ _ _ _ (by simp)]
    simp [switch_c_301, a, b]
  · intro oi endind rs a
    subst a
    rw [parse_loop_cons _ _ _ _ _ (by simp)]
    simp [switch_c_301, getopt_long]
  · intro oi endind rs a
    subst a
    rw [parse_loop_cons _ _ _ _ _ (by simp)]
    simp [switch_c_301, getopt_long]

/-- C8: for every sequence of occurrences that `parse_opts` processes without
exiting, started with the static `codecov` at its initial value `JL_LOG_NONE`,
the final `code_coverage` is got from `JL_LOG_NONE` by applying the rule of the
specification to the `--code-coverage` occurrences in order, and to nothing
else; with no such occurrence it is `JL_LOG_NONE`; a `--code-coverage`
occurrence never stops the parsing, and a string that differs from the accepted
ones only by case changes nothing. -/
theorem code_coverage_final (k : JuliaH) (rets : List GetoptRet) (endind : Int) (st st1 : State)
    (hc : st.codecov = k.JL_LOG_NONE)
    (h : parse_opts k rets endind st = .cont st1) :
    st1.jl_compileropts.code_coverage =
      (code_coverage_args (processed rets)).foldl (coverage_rule k) k.JL_LOG_NONE ∧
    (code_coverage_args (processed rets) = [] →
      st1.jl_compileropts.code_coverage = k.JL_LOG_NONE) ∧
    (∀ (s : State) (optarg : Option String), ∃ s1, switch_c k 99 optarg s = .cont s1) ∧
    (∀ s : State, switch_c k 99 (some "USER") s = .cont s ∧
      switch_c k 99 (some "bogus") s = .cont s) := by
  obtain ⟨s, hs, rfl⟩ := parse_opts_cont k rets endind st st1 h
  have hl := parse_loop_codecov k endind rets _ s hs
  have e : (parse_finish s).jl_compileropts.code_coverage = s.codecov := rfl
  rw [e, hl]
  dsimp only
  rw [hc]
  refine ⟨rfl, ?_, ?_, ?_⟩
  · intro hn
    rw [hn]
    rfl
  · intro s optarg
    rw [switch_c_99]
    cases optarg with
    | none => exact ⟨_, rfl⟩
    | some v => dsimp only; split_ifs <;> exact ⟨_, rfl⟩
  · intro s
    constructor <;> rw [switch_c_99] <;> simp

theorem code_coverage_final_witness :
    (initial julia_h sample_opts 4).codecov = julia_h.JL_LOG_NONE ∧
    (∃ s, parse_opts julia_h [⟨99, some "all", 2⟩, ⟨99, some "bogus", 3⟩, ⟨79, none, 4⟩] 4
        (initial julia_h sample_opts 4) = .cont s ∧
      s.jl_compileropts.code_coverage = julia_h.JL_LOG_ALL) :=
  ⟨rfl, _, rfl,
    (code_coverage_final julia_h [⟨99, some "all", 2⟩, ⟨99, some "bogus", 3⟩, ⟨79, none, 4⟩] 4
      (initial julia_h sample_opts 4) _ rfl rfl).1.trans (by decide)⟩

/-- C9: a `--track-allocation` occurrence with argument `v` sets the static
`malloclog` to `JL_LOG_NONE`, `JL_LOG_USER` or `JL_LOG_ALL` for `"none"`,
`"user"`, `"all"` and keeps it for any other string; nothing else of the state
changes (`check_bounds` included, also for `"yes"` and `"no"`: the arm is left by
its `break` before `case 300`); the loop goes on with the next occurrence; and
the run over that one occurrence ends with the same `jl_compileropts` as the run
over none, but for `malloc_log`. -/
theorem track_allocation_occurrence (k : JuliaH) (v : String) (st : State) :
    switch_c k 109 (some v) st = .cont { st with malloclog := track_rule k st.malloclog v } ∧
    (∀ s1, switch_c k 109 (some v) st = .cont s1 →
      s1.jl_compileropts = st.jl_compileropts ∧
      s1.jl_compileropts.check_bounds = st.jl_compileropts.check_bounds) ∧
    (∀ (oi endind : Int) (rs : List GetoptRet),
      parse_loop k endind (⟨109, some v, oi⟩ :: rs) st =
        parse_loop k endind rs
          { getopt_long ⟨109, some v, oi⟩ st with malloclog := track_rule k st.malloclog v }) ∧
    (∀ (oi : Int), ∃ s1 s0 : State,
      parse_opts k [⟨109, some v, oi⟩] oi st = .cont s1 ∧
      parse_opts k [] oi st = .cont s0 ∧
      s1.jl_compileropts =
        { s0.jl_compileropts with malloc_log := track_rule k st.malloclog v } ∧
      s0.jl_compileropts.malloc_log = st.malloclog) := by
  have arm : switch_c k 109 (some v) st =
      .cont { st with malloclog := track_rule k st.malloclog v } := by
    rw [switch_c_109]
    dsimp only [track_rule]
    split_ifs <;> simp_all
  refine ⟨arm, ?_, ?_, ?_⟩
  · intro s1 h
    rw [arm] at h
    cases h
    exact ⟨rfl, rfl⟩
  · intro oi endind rs
    rw [parse_loop_cons _ _ _ _ _ (by simp)]
    have arm2 : switch_c k 109 (some v) (getopt_long ⟨109, some v, oi⟩ st) =
        .cont { getopt_long ⟨109, some v, oi⟩ st with
                malloclog := track_rule k st.malloclog v } := by
      rw [switch_c_109]
      dsimp only [track_rule, getopt_long]
      split_ifs <;> simp_all
    dsimp only
    rw [arm2]
  · intro oi
    have arm2 : switch_c k 109 (some v)
        (getopt_long ⟨109, some v, oi⟩ { st with skip := 0, lastind := st.optind }) =
        .cont { getopt_long ⟨109, some v, oi⟩ { st with skip := 0, lastind := st.optind } with
                malloclog := track_rule k st.malloclog v } := by
      rw [switch_c_109]
      dsimp only [track_rule, getopt_long]
      split_ifs <;> simp_all
    have e1 : parse_opts k [⟨109, some v, oi⟩] oi st =
        .cont (parse_finish
          { getopt_long ⟨109, some v, oi⟩ { st with skip := 0, lastind := st.optind } with
            malloclog := track_rule k st.malloclog v, optind := oi }) := by
      unfold parse_opts
      rw [parse_loop_cons _ _ _ _ _ (by simp)]
      dsimp only
      rw [arm2]
      rfl
    have e0 : parse_opts k [] oi st =
        .cont (parse_finish { st with skip := 0, lastind := st.optind, optind := oi }) := rfl
    exact ⟨_, _, e1, e0, rfl, rfl⟩

theorem first_fatal_some (rets : List GetoptRet) (r : GetoptRet)
    (h : first_fatal rets = some r) : is_help r = true ∨ is_invalid r = true := by
  have := List.find?_some h
  simpa using this

theorem help_not_invalid (r : GetoptRet) (h : is_help r = true) : is_invalid r = false := by
  obtain ⟨c, optarg, oi⟩ := r
  simp only [is_help, beq_iff_eq] at h
  subst h
  cases optarg <;> simp [is_invalid]

theorem parse_opts_of_loop (k : JuliaH) (rets : List GetoptRet) (endind : Int) (st : State) :
    (∀ s, parse_loop k endind rets { st with skip := 0, lastind := st.optind } = .cont s →
      parse_opts k rets endind st = .cont (parse_finish s)) ∧
    (∀ n s, parse_loop k endind rets { st with skip := 0, lastind := st.optind } = .exit n s →
      parse_opts k rets endind st = .exit n s) := by
  constructor
  · intro s h; simp [parse_opts, h]
  · intro n s h; simp [parse_opts, h]

/-- C10: for every sequence of results of `getopt_long`, scanned left to right:
`parse_opts` exits with status 1 if and only if the first occurrence that is help
or an invalid value of `--int-literals`, `--compile` or `--depwarn` is an invalid
value; it exits with status 0 if and only if that first occurrence is help; it
returns if and only if there is no such occurrence.  No other occurrence is
fatal: every arm for an occurrence that is neither help nor such an invalid
value continues, in particular `'?'` (an unrecognized flag) and any value of
`--check-bounds`, `--dump-bitcode`, `--code-coverage` and `--track-allocation`. -/
theorem parse_opts_exit_status (k : JuliaH) (rets : List GetoptRet) (endind : Int) (st : State)
    (hret : ∀ r ∈ rets, returnable r = true) :
    ((∃ s, parse_opts k rets endind st = .exit 1 s) ↔
      ∃ r, first_fatal rets = some r ∧ is_invalid r = true) ∧
    ((∃ s, parse_opts k rets endind st = .exit 0 s) ↔
      ∃ r, first_fatal rets = some r ∧ is_help r = true) ∧
    ((∃ s, parse_opts k rets endind st = .cont s) ↔ first_fatal rets = none) ∧
    (∀ (r : GetoptRet) (s : State), returnable r = true → is_help r = false →
      is_invalid r = false → ∃ s1, switch_c k r.c r.optarg s = .cont s1) ∧
    (∀ (s : State) (optarg : Option String) (v : String),
      (∃ s1, switch_c k 63 optarg s = .cont s1) ∧
      (∃ s1, switch_c k 300 (some v) s = .cont s1) ∧
      (∃ s1, switch_c k 302 (some v) s = .cont s1) ∧
      (∃ s1, switch_c k 99 optarg s = .cont s1) ∧
      (∃ s1, switch_c k 109 (some v) s = .cont s1)) := by
  obtain ⟨l1, l2, l3⟩ :=
    parse_loop_returnable k endind rets { st with skip := 0, lastind := st.optind } hret
  obtain ⟨p1, p2⟩ := parse_opts_of_loop k rets endind st
  refine ⟨?_, ?_, ?_, ?_, ?_⟩
  · constructor
    · rintro ⟨s, hs⟩
      cases hf : first_fatal rets with
      | none =>
        obtain ⟨s1, h1⟩ := l1 hf
        rw [p1 s1 h1] at hs; cases hs
      | some r =>
        refine ⟨r, rfl, ?_⟩
        rcases first_fatal_some rets r hf with hh | hi
        · obtain ⟨s1, h1⟩ := l2 r hf hh
          rw [p2 0 s1 h1] at hs; cases hs
        · exact hi
    · rintro ⟨r, hf, hi⟩
      have hh : is_help r = false := by
        cases q : is_help r with
        | false => rfl
        | true => rw [help_not_invalid r q] at hi; cases hi
      obtain ⟨s1, h1⟩ := l3 r hf hh
      exact ⟨s1, p2 1 s1 h1⟩
  · constructor
    · rintro ⟨s, hs⟩
      cases hf : first_fatal rets with
      | none =>
        obtain ⟨s1, h1⟩ := l1 hf
        rw [p1 s1 h1] at hs; cases hs
      | some r =>
        refine ⟨r, rfl, ?_⟩
        cases q : is_help r with
        | true => rfl
        | false =>
          obtain ⟨s1, h1⟩ := l3 r hf q
          rw [p2 1 s1 h1] at hs; cases hs
    · rintro ⟨r, hf, hh⟩
      obtain ⟨s1, h1⟩ := l2 r hf hh
      exact ⟨s1, p2 0 s1 h1⟩
  · constructor
    · rintro ⟨s, hs⟩
      cases hf : first_fatal rets with
      | none => rfl
      | some r =>
        cases q : is_help r with
        | true =>
          obtain ⟨s1, h1⟩ := l2 r hf q
          rw [p2 0 s1 h1] at hs; cases hs
        | false =>
          obtain ⟨s1, h1⟩ := l3 r hf q
          rw [p2 1 s1 h1] at hs; cases hs
    · intro hf
      obtain ⟨s1, h1⟩ := l1 hf
      exact ⟨_, p1 s1 h1⟩
  · intro r s hr hh hi
    exact (switch_c_returnable k r s hr).2.2 hh hi
  · intro s optarg v
    refine ⟨⟨_, switch_c_63 k optarg s⟩, ?_, ?_, ?_, ?_⟩
    · rw [switch_c_300]; simp only [case_300]; split_ifs <;> exact ⟨_, rfl⟩
    · rw [switch_c_302]; dsimp only; split_ifs <;> exact ⟨_, rfl⟩
    · rw [switch_c_99]
      cases optarg with
      | none => exact ⟨_, rfl⟩
      | some w => dsimp only; split_ifs <;> exact ⟨_, rfl⟩
    · rw [switch_c_109]; dsimp only; split_ifs <;> exact ⟨_, rfl⟩

theorem parse_opts_exit_status_witness :
    returnable ⟨303, some "never", 4⟩ = true ∧
    ∃ s, parse_opts julia_h [⟨63, none, 2⟩, ⟨300, some "maybe", 3⟩, ⟨303, some "never", 4⟩,
        ⟨104, none, 5⟩] 5 (initial julia_h sample_opts 5) = .exit 1 s :=
  ⟨by decide,
   (parse_opts_exit_status julia_h [⟨63, none, 2⟩, ⟨300, some "maybe", 3⟩,
      ⟨303, some "never", 4⟩, ⟨104, none, 5⟩] 5 (initial julia_h sample_opts 5)
    (by decide)).1.mpr ⟨⟨303, some "never", 4⟩, by decide, by decide⟩⟩

/-! ## Theorems about the interactive loop -/

section hoare

variable {α β : Type}

theorem wp_bind (m : M α) (f : α → M β) (Q : β → Loop → Prop) (R : Loop → Prop) (s : Loop) :
    wp (m >>= f) Q R s ↔ wp m (fun a s1 => wp (f a) Q R s1) R s := by
  show wp (M.bind m f) Q R s ↔ _
  unfold wp M.bind
  cases m s <;> rfl

theorem wp_pure (a : α) (Q : α → Loop → Prop) (R : Loop → Prop) (s : Loop) :
    wp (pure a : M α) Q R s ↔ Q a s := Iff.rfl

theorem wp_ite (c : Prop) [Decidable c] (m1 m2 : M α) (Q : α → Loop → Prop)
    (R : Loop → Prop) (s : Loop) :
    wp (if c then m1 else m2) Q R s ↔ (c → wp m1 Q R s) ∧ (¬ c → wp m2 Q R s) := by
  by_cases h : c <;> simp [h]

theorem wp_ext (env : Env) (c : Call) (Q : Unit → Loop → Prop) (R : Loop → Prop) (s : Loop) :
    wp (ext env c) Q R s ↔
      (env.throws s.pass s.call = true → R { s with log := s.log ++ [c], call := s.call + 1 }) ∧
      (env.throws s.pass s.call = false →
        Q () { s with log := s.log ++ [c], call := s.call + 1 }) := by
  unfold wp ext
  cases h : env.throws s.pass s.call <;> simp

theorem wp_ios_readline (env : Env) (Q : Buf → Loop → Prop) (R : Loop → Prop) (s : Loop) :
    wp (ios_readline env) Q R s ↔
      (env.throws s.pass s.call = true →
        R { s with log := s.log ++ [.ios_readline], call := s.call + 1 }) ∧
      (env.throws s.pass s.call = false →
        Q ⟨s.nalloc, env.readline s.pass⟩
          { s with log := s.log ++ [.ios_readline], call := s.call + 1,
                   nalloc := s.nalloc + 1 }) := by
  unfold wp ios_readline
  cases h : env.throws s.pass s.call <;> simp

theorem wp_jl_eval_string (env : Env) (l : Buf) (Q : Nat → Loop → Prop)
    (R : Loop → Prop) (s : Loop) :
    wp (jl_eval_string env l) Q R s ↔
      (env.throws s.pass s.call = true →
        R { s with log := s.log ++ [.jl_eval_string l], call := s.call + 1 }) ∧
      (env.throws s.pass s.call = false →
        Q (env.eval s.pass) { s with log := s.log ++ [.jl_eval_string l], call := s.call + 1 }) := by
  unfold wp jl_eval_string
  cases h : env.throws s.pass s.call <;> simp

theorem wp_jl_exception_occurred (env : Env) (Q : Bool → Loop → Prop)
    (R : Loop → Prop) (s : Loop) :
    wp (jl_exception_occurred env) Q R s ↔
      (env.throws s.pass s.call = true →
        R { s with log := s.log ++ [.jl_exception_occurred], call := s.call + 1 }) ∧
      (env.throws s.pass s.call = false →
        Q (env.occurred s.pass)
          { s with log := s.log ++ [.jl_exception_occurred], call := s.call + 1 }) := by
  unfold wp jl_exception_occurred
  cases h : env.throws s.pass s.call <;> simp

theorem wp_free_some (b : Buf) (Q : Unit → Loop → Prop) (R : Loop → Prop) (s : Loop) :
    wp (free (some b)) Q R s ↔ Q () { s with log := s.log ++ [.free b.addr] } := Iff.rfl

theorem wp_free_none (Q : Unit → Loop → Prop) (R : Loop → Prop) (s : Loop) :
    wp (free none) Q R s ↔ Q () s := Iff.rfl

theorem wp_get_iserr (Q : Int → Loop → Prop) (R : Loop → Prop) (s : Loop) :
    wp get_iserr Q R s ↔ Q s.iserr s := Iff.rfl

theorem wp_get_line (Q : Option Buf → Loop → Prop) (R : Loop → Prop) (s : Loop) :
    wp get_line Q R s ↔ Q s.line s := Iff.rfl

theorem wp_set_iserr (v : Int) (Q : Unit → Loop → Prop) (R : Loop → Prop) (s : Loop) :
    wp (set_iserr v) Q R s ↔ Q () { s with iserr := v } := Iff.rfl

theorem wp_set_line (v : Option Buf) (Q : Unit → Loop → Prop) (R : Loop → Prop) (s : Loop) :
    wp (set_line v) Q R s ↔ Q () { s with line := v } := Iff.rfl

/-- A property of the state after the body of the `while`, through `wp`. -/
theorem body_wp (env : Env) (s : Loop) (P : Loop → Prop) :
    P (body env s) ↔
      wp (try_block env) (fun _ s1 => P { s1 with pass := s1.pass + 1 })
        (fun s1 => P { catch_block s1 with pass := s1.pass + 1 }) { s with call := 0 } := by
  unfold body wp
  cases try_block env { s with call := 0 } <;> rfl

end hoare

theorem catch_block_eq (s : Loop) :
    catch_block s =
      { s with iserr := 1, line := none,
               log := s.log ++ .JL_CATCH :: (match s.line with
                 | some b => [.free b.addr]
                 | none => []) } := by
  unfold catch_block
  cases h : s.line <;> simp [h]

/-- A pass only appends to the log, and moves on to the next pass number. -/
theorem body_log (env : Env) (s : Loop) :
    (body env (test s)).log = s.log ++ pass_log env s ∧ (body env (test s)).pass = s.pass + 1 := by
  unfold pass_log
  rw [body_wp env (test s)
    (fun t => t.log = s.log ++ t.log.drop s.log.length ∧ t.pass = s.pass + 1)]
  obtain ⟨p, c, ie, ln, na, lg⟩ := s
  simp only [try_block, test, wp_bind, wp_ite, wp_ext, wp_ios_readline, wp_jl_eval_string,
    wp_jl_exception_occurred, wp_get_iserr, wp_get_line, wp_set_iserr, wp_set_line,
    wp_free_some, wp_free_none, wp_pure, catch_block_eq]
  cases ln <;> simp

/-- After a pass in which a call jumped to `JL_CATCH`, `iserr` is 1. -/
theorem body_iserr_of_throws (env : Env) (s : Loop) (h : pass_throws env s = true) :
    (body env (test s)).iserr = 1 := by
  unfold pass_throws at h
  unfold body
  cases ht : try_block env { test s with call := 0 } with
  | ok a s1 => rw [ht] at h; cases h
  | thrown s1 => simp [catch_block_eq]

/-- C3, as the code has it: when a call of a pass jumps to `JL_CATCH` and the
following loop test finds end-of-input, the loop returns there with 1: after the
handler the only further call is that `ios_eof`, the `iserr` branch is not run
and no error report is printed. -/
theorem eof_after_failure (env : Env) (s : Loop)
    (hthrow : pass_throws env s = true) (heof : env.eof (s.pass + 1) = true) (fuel : Nat) :
    loop env (fuel + 1) (body env (test s)) = some (1, test (body env (test s))) ∧
    (test (body env (test s))).log = s.log ++ pass_log env s ++ [.ios_eof] ∧
    (env.eof s.pass = false →
      loop env (fuel + 2) s = some (1, test (body env (test s)))) := by
  have h1 : loop env (fuel + 1) (body env (test s)) = some (1, test (body env (test s))) := by
    unfold loop
    rw [(body_log env s).2, body_iserr_of_throws env s hthrow]
    simp [heof]
  refine ⟨h1, ?_, ?_⟩
  · show (body env (test s)).log ++ [Call.ios_eof] = _
    rw [(body_log env s).1]
  · intro hne
    rw [loop]
    simp only [hne]
    exact h1

theorem eof_after_failure_witness :
    pass_throws eof_after_failure_env entry = true ∧
    eof_after_failure_env.eof (entry.pass + 1) = true ∧
    loop eof_after_failure_env 1 (body eof_after_failure_env (test entry)) =
      some (1, test (body eof_after_failure_env (test entry))) :=
  ⟨by decide, by decide, (eof_after_failure eof_after_failure_env entry (by decide) (by decide) 0).1⟩

/-- C3, refuted as stated: the renderer jumps on the value of the only line and
the next loop test finds end-of-input; the loop returns 1 and the log ends with
the handler and that loop test: no `"\nerror in printing:\n"`, no rendering of
the exception in transit. -/
theorem eof_after_failure_no_report :
    (interactive eof_after_failure_env 2).map (fun p => (p.1, p.2.log)) =
      some (1,
        [.ios_eof, .ios_puts "\njulia> ", .ios_flush, .ios_readline,
         .jl_eval_string ⟨0, "x"⟩, .jl_exception_occurred,
         .jl_static_show .JL_STDOUT (.val 7), .JL_CATCH, .free 0, .ios_eof]) := by
  decide

/-- A property of the state after a pass in which no call jumps. -/
theorem body_wp_ok (env : Env) (s : Loop) (P : Loop → Prop) (h : pass_throws env s = false)
    (hw : wp (try_block env) (fun _ s1 => P { s1 with pass := s1.pass + 1 }) (fun _ => True)
      { test s with call := 0 }) :
    P (body env (test s)) := by
  unfold pass_throws at h
  unfold wp at hw
  unfold body
  cases ht : try_block env { test s with call := 0 } with
  | ok a s1 => rw [ht] at hw; exact hw
  | thrown s1 => rw [ht] at h; cases h

/-- A pass that reads a line and in which no call jumps logs `read_calls`. -/
theorem read_pass_log (env : Env) (s : Loop) (hl : s.line = none) (h0 : s.iserr = 0)
    (h : pass_throws env s = false) :
    pass_log env s = .ios_eof :: read_calls env s.pass s.nalloc ∧
    (body env (test s)).iserr = 0 := by
  unfold pass_log
  refine body_wp_ok env s (fun t => t.log.drop s.log.length =
    .ios_eof :: read_calls env s.pass s.nalloc ∧ t.iserr = 0) h ?_
  obtain ⟨p, c, ie, ln, na, lg⟩ := s
  simp only at hl h0
  subst hl h0
  simp only [try_block, test, wp_bind, wp_ite, wp_ext, wp_ios_readline, wp_jl_eval_string,
    wp_jl_exception_occurred, wp_get_iserr, wp_get_line, wp_set_iserr, wp_set_line,
    wp_free_some, wp_free_none, wp_pure, read_calls, render_calls]
  by_cases ho : env.occurred p = true
  · simp [ho]
  · by_cases hv : env.eval p = 0 <;> simp [ho, hv]

/-- A pass that takes the `iserr` branch and in which no call jumps logs
`report_calls` and leaves `iserr` at 0. -/
theorem report_pass_log (env : Env) (s : Loop) (h1 : s.iserr ≠ 0)
    (h : pass_throws env s = false) :
    pass_log env s = .ios_eof :: report_calls ∧ (body env (test s)).iserr = 0 ∧
    (body env (test s)).line = s.line := by
  unfold pass_log
  refine body_wp_ok env s (fun t => t.log.drop s.log.length = .ios_eof :: report_calls ∧
    t.iserr = 0 ∧ t.line = s.line) h ?_
  obtain ⟨p, c, ie, ln, na, lg⟩ := s
  simp only at h1
  simp only [try_block, test, wp_bind, wp_ite, wp_ext, wp_ios_readline, wp_jl_eval_string,
    wp_jl_exception_occurred, wp_get_iserr, wp_get_line, wp_set_iserr, wp_set_line,
    wp_free_some, wp_free_none, wp_pure, report_calls]
  simp [h1]

/-- Whatever jumps, a pass that takes the `iserr` branch starts with the header
of the report and the rendering of the exception in transit unless the header
call jumps, and makes none of the calls of the other branch. -/
theorem report_pass_any (env : Env) (s : Loop) (hl : s.line = none) (h1 : s.iserr ≠ 0) :
    (pass_log env s).take 2 = [.ios_eof, .jl_printf .JL_STDERR "\nerror in printing:\n"] ∧
    (env.throws s.pass 0 = false →
      (pass_log env s).take 3 = [.ios_eof, .jl_printf .JL_STDERR "\nerror in printing:\n",
        .jl_static_show .JL_STDOUT .jl_exception_in_transit]) ∧
    Call.ios_puts "\njulia> " ∉ pass_log env s ∧ Call.ios_flush ∉ pass_log env s ∧
    Call.ios_readline ∉ pass_log env s ∧
    (∀ b, Call.jl_eval_string b ∉ pass_log env s) := by
  unfold pass_log
  rw [body_wp env (test s) (fun t =>
    (t.log.drop s.log.length).take 2 =
      [.ios_eof, .jl_printf .JL_STDERR "\nerror in printing:\n"] ∧
    (env.throws s.pass 0 = false →
      (t.log.drop s.log.length).take 3 = [.ios_eof, .jl_printf .JL_STDERR "\nerror in printing:\n",
        .jl_static_show .JL_STDOUT .jl_exception_in_transit]) ∧
    Call.ios_puts "\njulia> " ∉ t.log.drop s.log.length ∧
    Call.ios_flush ∉ t.log.drop s.log.length ∧
    Call.ios_readline ∉ t.log.drop s.log.length ∧
    (∀ b, Call.jl_eval_string b ∉ t.log.drop s.log.length))]
  obtain ⟨p, c, ie, ln, na, lg⟩ := s
  simp only at hl h1
  subst hl
  simp only [try_block, test, wp_bind, wp_ite, wp_ext, wp_ios_readline, wp_jl_eval_string,
    wp_jl_exception_occurred, wp_get_iserr, wp_get_line, wp_set_iserr, wp_set_line,
    wp_free_some, wp_free_none, wp_pure, catch_block_eq]
  simp [h1]

theorem read_calls_poll (env : Env) (i a : Nat) :
    (Call.ios_eof :: read_calls env i a).count .uv_run = 1 ∧
    (Call.ios_eof :: read_calls env i a).getLast? = some .uv_run := by
  unfold read_calls render_calls
  by_cases ho : env.occurred i = true
  · simp [ho, List.count_cons]
  · by_cases hv : env.eval i = 0 <;> simp [ho, hv, List.count_cons]

/-- C5, as the code has it: in every pass started at a loop test (where
`line == NULL`): if the pass reads a line and no call of it jumps, its calls
are `read_calls`, in which `uv_run` occurs exactly once, as the last call, after
the `free` of the line; more generally, `uv_run` is called exactly once in the
pass if the line read in it is freed before any entry into `JL_CATCH`
(evaluation, rendering and the final newline are through), and not at all in a
pass that prompts and in which a call jumps before that `free` (during the
evaluation or while the result or the error is rendered); whatever jumps,
`uv_run` is called at most once in a pass, never after the entry into `JL_CATCH`
(the pass then ends by `goto again`), and never between the printing of the
prompt and `ios_readline`. -/
theorem poll_discipline (env : Env) (s : Loop) (hl : s.line = none) :
    (s.iserr = 0 → pass_throws env s = false →
      pass_log env s = .ios_eof :: read_calls env s.pass s.nalloc ∧
      (pass_log env s).count .uv_run = 1 ∧
      (pass_log env s).getLast? = some .uv_run) ∧
    (Call.free s.nalloc ∈ pass_log env s →
      Call.JL_CATCH ∉ (pass_log env s).takeWhile (fun c => c ≠ Call.free s.nalloc) →
      (pass_log env s).count .uv_run = 1) ∧
    (s.iserr = 0 →
      (Call.free s.nalloc ∉ pass_log env s ∨
        Call.JL_CATCH ∈ (pass_log env s).takeWhile (fun c => c ≠ Call.free s.nalloc)) →
      (pass_log env s).count .uv_run = 0) ∧
    (pass_log env s).count .uv_run ≤ 1 ∧
    ¬ List.Sublist [.JL_CATCH, .uv_run] (pass_log env s) ∧
    ¬ List.Sublist [.ios_puts "\njulia> ", .uv_run, .ios_readline] (pass_log env s) := by
  constructor
  · intro h0 h
    obtain ⟨e, -⟩ := read_pass_log env s hl h0 h
    rw [e]
    exact ⟨rfl, read_calls_poll env s.pass s.nalloc⟩
  · unfold pass_log
    rw [body_wp env (test s) (fun t =>
      (Call.free s.nalloc ∈ t.log.drop s.log.length →
        Call.JL_CATCH ∉ (t.log.drop s.log.length).takeWhile (fun c => c ≠ Call.free s.nalloc) →
        (t.log.drop s.log.length).count .uv_run = 1) ∧
      (s.iserr = 0 →
        (Call.free s.nalloc ∉ t.log.drop s.log.length ∨
          Call.JL_CATCH ∈
            (t.log.drop s.log.length).takeWhile (fun c => c ≠ Call.free s.nalloc)) →
        (t.log.drop s.log.length).count .uv_run = 0) ∧
      (t.log.drop s.log.length).count .uv_run ≤ 1 ∧
      ¬ List.Sublist [.JL_CATCH, .uv_run] (t.log.drop s.log.length) ∧
      ¬ List.Sublist [.ios_puts "\njulia> ", .uv_run, .ios_readline]
          (t.log.drop s.log.length))]
    obtain ⟨p, c, ie, ln, na, lg⟩ := s
    simp only at hl
    subst hl
    simp only [try_block, test, wp_bind, wp_ite, wp_ext, wp_ios_readline, wp_jl_eval_string,
      wp_jl_exception_occurred, wp_get_iserr, wp_get_line, wp_set_iserr, wp_set_line,
      wp_free_some, wp_free_none, wp_pure, catch_block_eq]
    simp [List.count_cons, List.cons_sublist_cons', List.takeWhile_cons]
    intro h _ _ _
    exact ⟨fun _ => h, fun _ => h⟩

theorem poll_discipline_witness :
    entry.line = none ∧
    pass_log calm_env entry =
      [.ios_eof, .ios_puts "\njulia> ", .ios_flush, .ios_readline,
       .jl_eval_string ⟨0, "1+1"⟩, .jl_exception_occurred,
       .jl_static_show .JL_STDOUT (.val 2), .JL_PUTS "\n" .JL_STDOUT, .free 0, .uv_run] :=
  ⟨rfl, ((poll_discipline calm_env entry rfl).1 rfl (by decide)).1.trans (by decide)⟩

/-- C5, refuted as stated: the evaluation of the only line completes, with the
value 7 in the first behaviour and with a recoverable error in the second, and
the renderer then jumps (on the value; on the exception in transit while the
error is reported).  The pass ends in the handler, and `uv_run` is not called
for that line. -/
theorem poll_skipped_after_render_jump :
    one_failure_env.throws 0 3 = false ∧
    pass_log one_failure_env entry =
      [.ios_eof, .ios_puts "\njulia> ", .ios_flush, .ios_readline,
       .jl_eval_string ⟨0, "x"⟩, .jl_exception_occurred,
       .jl_static_show .JL_STDOUT (.val 7), .JL_CATCH, .free 0] ∧
    (pass_log one_failure_env entry).count .uv_run = 0 ∧
    error_render_fails_env.throws 0 3 = false ∧
    pass_log error_render_fails_env entry =
      [.ios_eof, .ios_puts "\njulia> ", .ios_flush, .ios_readline,
       .jl_eval_string ⟨0, "1/0"⟩, .jl_exception_occurred,
       .JL_PUTS "error during run:\n" .JL_STDERR,
       .jl_static_show .JL_STDOUT .jl_exception_in_transit, .JL_CATCH, .free 0] ∧
    (pass_log error_render_fails_env entry).count .uv_run = 0 := by
  decide

/-- Whatever jumps, a pass that does not take the `iserr` branch starts with the
prompt. -/
theorem read_pass_any (env : Env) (s : Loop) (hl : s.line = none) (h0 : s.iserr = 0) :
    (pass_log env s).take 2 = [.ios_eof, .ios_puts "\njulia> "] := by
  unfold pass_log
  rw [body_wp env (test s) (fun t =>
    (t.log.drop s.log.length).take 2 = [.ios_eof, .ios_puts "\njulia> "])]
  obtain ⟨p, c, ie, ln, na, lg⟩ := s
  simp only at hl h0
  subst hl h0
  simp only [try_block, test, wp_bind, wp_ite, wp_ext, wp_ios_readline, wp_jl_eval_string,
    wp_jl_exception_occurred, wp_get_iserr, wp_get_line, wp_set_iserr, wp_set_line,
    wp_free_some, wp_free_none, wp_pure, catch_block_eq]
  simp

theorem body_line_of_throws (env : Env) (s : Loop) (h : pass_throws env s = true) :
    (body env (test s)).line = none := by
  unfold pass_throws at h
  unfold body
  cases ht : try_block env { test s with call := 0 } with
  | ok a s1 => rw [ht] at h; cases h
  | thrown s1 => simp [catch_block_eq]

/-- C2, as the code has it: let a call of a pass jump to `JL_CATCH` and let the
next loop test find input; `t` is the state at that test, `u` the state at the
test after.  Then `iserr` is 1 at `t` and the loop goes through the pass from
`t`.  That pass prints no prompt and reads and evaluates no line; it starts with
the `"\nerror in printing:\n"` header and, unless the header call jumps, the
rendering of the exception in transit.  If no call of that pass jumps, its calls
are exactly `report_calls` (header, rendering, newline, one `uv_run`), `iserr` is
0 at `u`, and the pass from `u` starts with the prompt and, if nothing jumps in
it, reads and evaluates a line.  If a call of the pass from `t` jumps, `iserr`
is 1 again at `u`. -/
theorem report_after_failure (env : Env) (s t u : Loop)
    (hthrow : pass_throws env s = true) (hne : env.eof (s.pass + 1) = false)
    (ht : t = body env (test s)) (hu : u = body env (test t)) :
    t.iserr = 1 ∧ t.line = none ∧
    (∀ fuel, loop env (fuel + 1) t = loop env fuel u) ∧
    (pass_log env t).take 2 = [.ios_eof, .jl_printf .JL_STDERR "\nerror in printing:\n"] ∧
    (env.throws t.pass 0 = false →
      (pass_log env t).take 3 = [.ios_eof, .jl_printf .JL_STDERR "\nerror in printing:\n",
        .jl_static_show .JL_STDOUT .jl_exception_in_transit]) ∧
    Call.ios_puts "\njulia> " ∉ pass_log env t ∧ Call.ios_flush ∉ pass_log env t ∧
    Call.ios_readline ∉ pass_log env t ∧ (∀ b, Call.jl_eval_string b ∉ pass_log env t) ∧
    (pass_throws env t = false →
      pass_log env t = .ios_eof :: report_calls ∧
      (pass_log env t).count .uv_run = 1 ∧
      u.iserr = 0 ∧
      (pass_log env u).take 2 = [.ios_eof, .ios_puts "\njulia> "] ∧
      (pass_throws env u = false → pass_log env u = .ios_eof :: read_calls env u.pass u.nalloc)) ∧
    (pass_throws env t = true → u.iserr = 1) := by
  have t1 : t.iserr = 1 := by rw [ht]; exact body_iserr_of_throws env s hthrow
  have t2 : t.line = none := by rw [ht]; exact body_line_of_throws env s hthrow
  have t3 : t.pass = s.pass + 1 := by rw [ht]; exact (body_log env s).2
  have t4 : t.iserr ≠ 0 := by rw [t1]; decide
  obtain ⟨a1, a2, a3, a4, a5, a6⟩ := report_pass_any env t t2 t4
  refine ⟨t1, t2, ?_, a1, a2, a3, a4, a5, a6, ?_, ?_⟩
  · intro fuel
    rw [loop, t3]
    simp only [hne]
    rw [hu]
    rfl
  · intro hc
    obtain ⟨b1, b2, b3⟩ := report_pass_log env t t4 hc
    have u1 : u.iserr = 0 := by rw [hu]; exact b2
    have u2 : u.line = none := by rw [hu, b3]; exact t2
    refine ⟨b1, ?_, u1, read_pass_any env u u2 u1, ?_⟩
    · rw [b1]; decide
    · intro hcu
      exact (read_pass_log env u u2 u1 hcu).1
  · intro hc
    rw [hu]
    exact body_iserr_of_throws env t hc

theorem report_after_failure_witness :
    pass_throws one_failure_env entry = true ∧
    one_failure_env.eof (entry.pass + 1) = false ∧
    (at_test one_failure_env 1).iserr = 1 ∧
    pass_log one_failure_env (at_test one_failure_env 1) = .ios_eof :: report_calls ∧
    (at_test one_failure_env 2).iserr = 0 ∧
    (pass_log one_failure_env (at_test one_failure_env 2)).take 2 =
      [.ios_eof, .ios_puts "\njulia> "] :=
  ⟨by decide, by decide,
   (report_after_failure one_failure_env entry (at_test one_failure_env 1)
      (at_test one_failure_env 2) (by decide) (by decide) rfl rfl).1,
   ((report_after_failure one_failure_env entry (at_test one_failure_env 1)
      (at_test one_failure_env 2) (by decide) (by decide) rfl rfl).2.2.2.2.2.2.2.2.2.1
      (by decide)).1,
   ((report_after_failure one_failure_env entry (at_test one_failure_env 1)
      (at_test one_failure_env 2) (by decide) (by decide) rfl rfl).2.2.2.2.2.2.2.2.2.1
      (by decide)).2.2.1,
   ((report_after_failure one_failure_env entry (at_test one_failure_env 1)
      (at_test one_failure_env 2) (by decide) (by decide) rfl rfl).2.2.2.2.2.2.2.2.2.1
      (by decide)).2.2.2.1⟩

/-- C2, refuted as stated: the renderer jumps on the value of the first line
(pass 0) and again on the exception in transit in pass 1, with input left at
both loop tests.  Pass 1 is the pass after the failure: it neither brings
`iserr` back to 0 nor calls `uv_run`, and the pass after it starts with the
report header again, not with the prompt. -/
theorem report_pass_can_fail :
    pass_throws broken_show_env entry = true ∧
    broken_show_env.eof 1 = false ∧ broken_show_env.eof 2 = false ∧
    pass_log broken_show_env (at_test broken_show_env 1) =
      [.ios_eof, .jl_printf .JL_STDERR "\nerror in printing:\n",
       .jl_static_show .JL_STDOUT .jl_exception_in_transit, .JL_CATCH] ∧
    (at_test broken_show_env 2).iserr = 1 ∧
    (pass_log broken_show_env (at_test broken_show_env 1)).count .uv_run = 0 ∧
    (pass_log broken_show_env (at_test broken_show_env 2)).take 2 =
      [.ios_eof, .jl_printf .JL_STDERR "\nerror in printing:\n"] := by
  decide

/-! ## Theorems about the Configuration as a whole and the argument cursor -/

/-- What an arm that continues does: to the Configuration it does `cfg_step`
(`lisp_prompt` is not written by the arms but by `getopt_long`);
`optind`, `argc`, `argv` and the streams are left alone; `skip` and `lastind`
are written by the `'?'` arm only; and the arm continues from every state. -/
theorem switch_c_cfg (k : JuliaH) (c : Int) (optarg : Option String) (st st1 : State)
    (h : switch_c k c optarg st = .cont st1) :
    cfg_of st1 = { cfg_step k c optarg (cfg_of st) with lisp_prompt := st.lisp_prompt } ∧
    st1.optind = st.optind ∧ st1.argc = st.argc ∧ st1.argv = st.argv ∧
    st1.skip = (if c = 63 then (if st.optind ≠ st.lastind then st.skip + 1 else st.skip)
      else st.skip) ∧
    st1.lastind = (if c = 63 then st.optind else st.lastind) ∧
    continues k c optarg := by
  rcases label_cases c with hc | hc | hc | hc | hc | hc | hc | hc | hc | hc | hc | hc | hc | hc | hc | hc
  · subst hc; rw [switch_c_0] at h; cases h
    exact ⟨by simp [cfg_of, cfg_step], rfl, rfl, rfl, rfl, rfl, fun s => ⟨_, switch_c_0 k optarg s⟩⟩
  · subst hc; rw [switch_c_63] at h; cases h
    exact ⟨by simp [cfg_of, cfg_step], rfl, rfl, rfl, rfl, rfl, fun s => ⟨_, switch_c_63 k optarg s⟩⟩
  · subst hc; rw [switch_c_72] at h
    cases optarg <;> simp at h; subst h
    exact ⟨by simp [cfg_of, cfg_step], rfl, rfl, rfl, rfl, rfl, fun s => ⟨_, switch_c_72 k _ s⟩⟩
  · subst hc; rw [switch_c_98] at h
    cases optarg <;> simp at h
    refine ⟨?_, ?_, ?_, ?_, ?_, ?_, fun s => ?_⟩
    · split_ifs at h with q <;> cases h <;> simp [cfg_of, cfg_step, q]
    · split_ifs at h with q <;> cases h <;> rfl
    · split_ifs at h with q <;> cases h <;> rfl
    · split_ifs at h with q <;> cases h <;> rfl
    · split_ifs at h with q <;> cases h <;> rfl
    · split_ifs at h with q <;> cases h <;> rfl
    · rw [switch_c_98]; dsimp only; split_ifs <;> exact ⟨_, rfl⟩
  · subst hc; rw [switch_c_74] at h
    cases optarg <;> simp at h; subst h
    exact ⟨by simp [cfg_of, cfg_step], rfl, rfl, rfl, rfl, rfl, fun s => ⟨_, switch_c_74 k _ s⟩⟩
  · subst hc; rw [switch_c_67] at h
    cases optarg <;> simp at h; subst h
    exact ⟨by simp [cfg_of, cfg_step], rfl, rfl, rfl, rfl, rfl, fun s => ⟨_, switch_c_67 k _ s⟩⟩
  · subst hc; rw [switch_c_104] at h; cases h
  · subst hc; rw [switch_c_79] at h; cases h
    exact ⟨by simp [cfg_of, cfg_step], rfl, rfl, rfl, rfl, rfl, fun s => ⟨_, switch_c_79 k optarg s⟩⟩
  · subst hc; rw [switch_c_99] at h
    refine ⟨?_, ?_, ?_, ?_, ?_, ?_, fun s => ?_⟩
    · cases optarg with
      | none => simp at h; subst h; simp [cfg_of, cfg_step, coverage_rule]
      | some v =>
        simp only at h
        split_ifs at h <;> cases h <;> simp_all [cfg_of, cfg_step, coverage_rule]
    all_goals first
      | (rw [switch_c_99]; cases optarg with
          | none => exact ⟨_, rfl⟩
          | some v => dsimp only; split_ifs <;> exact ⟨_, rfl⟩)
      | (cases optarg with
          | none => simp at h; subst h; rfl
          | some v => simp only at h; split_ifs at h <;> cases h <;> rfl)
  · subst hc; rw [switch_c_109] at h
    cases optarg <;> simp at h
    refine ⟨?_, ?_, ?_, ?_, ?_, ?_, fun s => ?_⟩
    · split_ifs at h <;> cases h <;> simp_all [cfg_of, cfg_step, track_rule]
    all_goals first
      | (rw [switch_c_109]; dsimp only; split_ifs <;> exact ⟨_, rfl⟩)
      | (split_ifs at h <;> cases h <;> rfl)
  · subst hc; rw [switch_c_300] at h
    cases optarg <;> simp [case_300] at h
    refine ⟨?_, ?_, ?_, ?_, ?_, ?_, fun s => ?_⟩
    · split_ifs at h <;> cases h <;> simp_all [cfg_of, cfg_step, check_bounds_rule]
    all_goals first
      | (rw [switch_c_300]; simp only [case_300]; split_ifs <;> exact ⟨_, rfl⟩)
      | (split_ifs at h <;> cases h <;> rfl)
  · subst hc; rw [switch_c_301] at h
    cases optarg <;> simp at h
    refine ⟨?_, ?_, ?_, ?_, ?_, ?_, fun s => ?_⟩
    · split_ifs at h <;> cases h <;> simp_all [cfg_of, cfg_step]
    all_goals first
      | (rw [switch_c_301]; dsimp only; split_ifs at h ⊢ <;> exact ⟨_, rfl⟩)
      | (split_ifs at h <;> cases h <;> rfl)
  · subst hc; rw [switch_c_302] at h
    cases optarg <;> simp at h
    refine ⟨?_, ?_, ?_, ?_, ?_, ?_, fun s => ?_⟩
    · split_ifs at h <;> cases h <;> simp_all [cfg_of, cfg_step, dumpbitcode_rule]
    all_goals first
      | (rw [switch_c_302]; dsimp only; split_ifs <;> exact ⟨_, rfl⟩)
      | (split_ifs at h <;> cases h <;> rfl)
  · subst hc; rw [switch_c_303] at h
    cases optarg <;> simp at h
    refine ⟨?_, ?_, ?_, ?_, ?_, ?_, fun s => ?_⟩
    · split_ifs at h <;> cases h <;> simp_all [cfg_of, cfg_step]
    all_goals first
      | (rw [switch_c_303]; dsimp only; split_ifs at h ⊢ <;> exact ⟨_, rfl⟩)
      | (split_ifs at h <;> cases h <;> rfl)
  · subst hc; rw [switch_c_304] at h
    cases optarg <;> simp at h
    refine ⟨?_, ?_, ?_, ?_, ?_, ?_, fun s => ?_⟩
    · split_ifs at h <;> cases h <;> simp_all [cfg_of, cfg_step]
    all_goals first
      | (rw [switch_c_304]; dsimp only; split_ifs at h ⊢ <;> exact ⟨_, rfl⟩)
      | (split_ifs at h <;> cases h <;> rfl)
  · rw [switch_c_default k optarg st c hc] at h; cases h

/-- One turn of the loop that continues: `getopt_long` and then the arm do
`cfg_step` to the Configuration; the cursor fields move as in the source. -/
theorem turn_cfg (k : JuliaH) (r : GetoptRet) (st st1 : State)
    (h : switch_c k r.c r.optarg (getopt_long r st) = .cont st1) :
    cfg_of st1 = cfg_step k r.c r.optarg (cfg_of st) ∧
    st1.optind = r.optind ∧ st1.argc = st.argc ∧ st1.argv = st.argv ∧
    st1.skip = (if r.c = 63 then (if r.optind ≠ st.lastind then st.skip + 1 else st.skip)
      else st.skip) ∧
    st1.lastind = (if r.c = 63 then r.optind else st.lastind) ∧
    continues k r.c r.optarg := by
  obtain ⟨a1, a2, a3, a4, a5, a6, a7⟩ := switch_c_cfg k r.c r.optarg _ st1 h
  refine ⟨?_, a2, a3, a4, a5, a6, a7⟩
  rw [a1]
  simp [cfg_of, cfg_step, getopt_long]

/-- The Configuration at the end of a loop that is not cut short by a -1 in the
list: `cfg_step` folded over the occurrences. -/
theorem parse_loop_cfg (k : JuliaH) (endind : Int) (rets : List GetoptRet) :
    ∀ st st1 : State, (∀ r ∈ rets, r.c ≠ -1) → parse_loop k endind rets st = .cont st1 →
      cfg_of st1 = (rets.map occ_key).foldl (fun m p => cfg_step k p.1 p.2 m) (cfg_of st) ∧
      ∀ r ∈ rets, continues k r.c r.optarg := by
  induction rets with
  | nil =>
    intro st st1 _ h
    simp [parse_loop] at h
    subst h
    simp [cfg_of]
  | cons r rs ih =>
    intro st st1 hne h
    have hr : r.c ≠ -1 := hne r (List.mem_cons_self _ _)
    rw [parse_loop_cons k endind r rs st hr] at h
    cases hs : switch_c k r.c r.optarg (getopt_long r st) with
    | exit n s2 => rw [hs] at h; cases h
    | undefined => rw [hs] at h; cases h
    | cont s2 =>
      rw [hs] at h
      obtain ⟨i1, i2⟩ := ih s2 st1 (fun q hq => hne q (List.mem_cons_of_mem _ hq)) h
      obtain ⟨a1, -, -, -, -, -, a7⟩ := turn_cfg k r st s2 hs
      refine ⟨?_, ?_⟩
      · rw [i1, a1]; rfl
      · intro q hq
        rcases List.mem_cons.mp hq with e | e
        · subst e; exact a7
        · exact i2 q e

/-- A loop over occurrences whose arms all continue returns. -/
theorem parse_loop_continues (k : JuliaH) (endind : Int) (rets : List GetoptRet) :
    ∀ st : State, (∀ r ∈ rets, r.c ≠ -1) → (∀ r ∈ rets, continues k r.c r.optarg) →
      ∃ st1, parse_loop k endind rets st = .cont st1 := by
  induction rets with
  | nil => intro st _ _; exact ⟨_, rfl⟩
  | cons r rs ih =>
    intro st hne hc
    rw [parse_loop_cons k endind r rs st (hne r (List.mem_cons_self _ _))]
    obtain ⟨s2, hs⟩ := hc r (List.mem_cons_self _ _) (getopt_long r st)
    rw [hs]
    exact ih s2 (fun q hq => hne q (List.mem_cons_of_mem _ hq))
      (fun q hq => hc q (List.mem_cons_of_mem _ hq))

/-- Occurrences of different flags commute on the Configuration. -/
theorem cfg_step_comm (k : JuliaH) (c1 c2 : Int) (o1 o2 : Option String) (m : Cfg)
    (hne : c1 ≠ c2) :
    cfg_step k c2 o2 (cfg_step k c1 o1 m) = cfg_step k c1 o1 (cfg_step k c2 o2 m) := by
  obtain ⟨⟨f1, f2, f3, f4, f5, f6, f7, f8, f9, f10, f11, f12⟩, g1, g2, g3, g4⟩ := m
  simp only [cfg_step, Cfg.mk.injEq, jl_compileropts_t.mk.injEq]
  refine ⟨⟨?_, ?_, ?_, ?_, ?_, ?_, ?_, ?_, ?_, ?_, ?_, ?_⟩, ?_, ?_, ?_, ?_⟩ <;>
    first | trivial | (split_ifs <;> first | rfl | omega)

theorem foldl_cfg_perm (k : JuliaH) (l1 l2 : List (Int × Option String)) (m : Cfg)
    (hp : l1.Perm l2) (hn : (l1.map Prod.fst).Nodup) :
    l1.foldl (fun m p => cfg_step k p.1 p.2 m) m = l2.foldl (fun m p => cfg_step k p.1 p.2 m) m := by
  refine List.Perm.foldl_eq' hp ?_ m
  intro x hx y hy z
  by_cases e : x = y
  · subst e; rfl
  · have hxy : x.1 ≠ y.1 := by
      intro h
      exact e (List.inj_on_of_nodup_map hn hx hy h)
    exact cfg_step_comm k x.1 y.1 x.2 y.2 z hxy

/-- C11: take a list of occurrences with at most one occurrence of each flag
(the values of `c` are pairwise different: the short and the long spelling of a
flag give the same `c`), which `parse_opts` processes without exiting.  For
every list with the same occurrences in another order (the same flags with the
same arguments; where they stand, `optind`, may differ) `parse_opts` returns as
well, with the same `jl_compileropts`, the same `imagepathspecified` and the
same `lisp_prompt`. -/
theorem parse_opts_order_independent (k : JuliaH) (rets rets2 : List GetoptRet)
    (endind endind2 : Int) (st st1 : State)
    (hperm : (rets.map occ_key).Perm (rets2.map occ_key))
    (honce : (rets.map (fun r => r.c)).Nodup)
    (hocc : ∀ r ∈ rets, r.c ≠ -1)
    (h : parse_opts k rets endind st = .cont st1) :
    ∃ st2, parse_opts k rets2 endind2 st = .cont st2 ∧
      st2.jl_compileropts = st1.jl_compileropts ∧
      st2.imagepathspecified = st1.imagepathspecified ∧
      st2.lisp_prompt = st1.lisp_prompt := by
  obtain ⟨s, hs, rfl⟩ := parse_opts_cont k rets endind st st1 h
  obtain ⟨c1, c2⟩ := parse_loop_cfg k endind rets _ s hocc hs
  have key_mem : ∀ q ∈ rets2, ∃ r ∈ rets, occ_key r = occ_key q := by
    intro q hq
    have : occ_key q ∈ rets.map occ_key :=
      hperm.symm.subset (List.mem_map_of_mem occ_key hq)
    obtain ⟨r, hr, e⟩ := List.mem_map.mp this
    exact ⟨r, hr, e⟩
  have hocc2 : ∀ q ∈ rets2, q.c ≠ -1 := by
    intro q hq
    obtain ⟨r, hr, e⟩ := key_mem q hq
    have : r.c = q.c := congrArg Prod.fst e
    rw [← this]; exact hocc r hr
  have hcont2 : ∀ q ∈ rets2, continues k q.c q.optarg := by
    intro q hq
    obtain ⟨r, hr, e⟩ := key_mem q hq
    have e1 : r.c = q.c := congrArg Prod.fst e
    have e2 : r.optarg = q.optarg := congrArg Prod.snd e
    rw [← e1, ← e2]; exact c2 r hr
  obtain ⟨s2, hs2⟩ := parse_loop_continues k endind2 rets2
    { st with skip := 0, lastind := st.optind } hocc2 hcont2
  obtain ⟨d1, -⟩ := parse_loop_cfg k endind2 rets2 _ s2 hocc2 hs2
  have hn : ((rets.map occ_key).map Prod.fst).Nodup := by
    rw [List.map_map]; exact honce
  have e := foldl_cfg_perm k _ _ (cfg_of { st with skip := 0, lastind := st.optind }) hperm hn
  have hcfg : cfg_of s2 = cfg_of s := by rw [d1, c1, e]
  refine ⟨parse_finish s2, (parse_opts_of_loop k rets2 endind2 st).1 s2 hs2, ?_, ?_, ?_⟩
  · have a1 : s2.jl_compileropts = s.jl_compileropts := congrArg Cfg.opts hcfg
    have a2 : s2.codecov = s.codecov := congrArg Cfg.codecov hcfg
    have a3 : s2.malloclog = s.malloclog := congrArg Cfg.malloclog hcfg
    simp [parse_finish, a1, a2, a3]
  · exact congrArg Cfg.imagepathspecified hcfg
  · exact congrArg Cfg.lisp_prompt hcfg

theorem parse_opts_order_independent_witness :
    ∃ st2, parse_opts julia_h
        [⟨74, some "my.ji", 3⟩, ⟨79, none, 4⟩, ⟨99, none, 5⟩, ⟨98, some "out", 7⟩] 7
        (initial julia_h sample_opts 8) = .cont st2 ∧
      st2.jl_compileropts =
        { sample_opts with build_path := some "out", image_file := some "my.ji",
                           opt_level := 1, code_coverage := 1 } ∧
      st2.imagepathspecified = 1 ∧ st2.lisp_prompt = 0 :=
  parse_opts_order_independent julia_h
    [⟨98, some "out", 3⟩, ⟨99, none, 4⟩, ⟨74, some "my.ji", 6⟩, ⟨79, none, 7⟩]
    [⟨74, some "my.ji", 3⟩, ⟨79, none, 4⟩, ⟨99, none, 5⟩, ⟨98, some "out", 7⟩] 7 7
    (initial julia_h sample_opts 8) _ (by decide) (by decide) (by decide) rfl

/-- The cursor at the end of the loop, for a trace whose `optind` values never
decrease: `skip` counts at most the tokens between the first `optind` and the
last one. -/
theorem parse_loop_cursor (k : JuliaH) (endind argc : Int) (rets : List GetoptRet) :
    ∀ (cur : Int) (st st1 : State), optind_trace_ok argc endind cur rets = true →
      st.optind = cur → 1 ≤ st.lastind → st.lastind ≤ st.optind → 0 ≤ st.skip →
      st.skip ≤ st.lastind - 1 → parse_loop k endind rets st = .cont st1 →
      st1.optind = loop_end_optind endind rets ∧ 0 ≤ st1.skip ∧ st1.skip ≤ st1.optind - 1 ∧
      st1.optind ≤ argc ∧ st1.argc = st.argc ∧ st1.argv = st.argv := by
  induction rets with
  | nil =>
    intro cur st st1 ht h1 h2 h3 h4 h5 h
    simp [parse_loop] at h
    subst h
    simp only [optind_trace_ok, Bool.and_eq_true, decide_eq_true_eq] at ht
    refine ⟨by simp [loop_end_optind], h4, ?_, ht.2, rfl, rfl⟩
    show st.skip ≤ endind - 1
    omega
  | cons r rs ih =>
    intro cur st st1 ht h1 h2 h3 h4 h5 h
    simp only [optind_trace_ok, Bool.and_eq_true, decide_eq_true_eq] at ht
    obtain ⟨t1, t2⟩ := ht
    by_cases hr : r.c = -1
    · rw [parse_loop_stop k endind r rs st hr] at h
      cases h
      simp only [hr, if_true, decide_eq_true_eq] at t2
      refine ⟨by simp [loop_end_optind, hr], h4, ?_, t2, rfl, rfl⟩
      show st.skip ≤ r.optind - 1
      omega
    · rw [parse_loop_cons k endind r rs st hr] at h
      simp only [hr, if_false] at t2
      cases hs : switch_c k r.c r.optarg (getopt_long r st) with
      | exit n s2 => rw [hs] at h; cases h
      | undefined => rw [hs] at h; cases h
      | cont s2 =>
        rw [hs] at h
        obtain ⟨-, a2, a3, a4, a5, a6, -⟩ := turn_cfg k r st s2 hs
        have b1 : 1 ≤ s2.lastind := by rw [a6]; split_ifs <;> omega
        have b2 : s2.lastind ≤ s2.optind := by rw [a6, a2]; split_ifs <;> omega
        have b3 : 0 ≤ s2.skip := by rw [a5]; split_ifs <;> omega
        have b4 : s2.skip ≤ s2.lastind - 1 := by rw [a5, a6]; split_ifs <;> omega
        obtain ⟨i1, i2, i3, i4, i5, i6⟩ := ih r.optind s2 st1 t2 a2 b1 b2 b3 b4 h
        simp only [loop_end_optind, hr, if_false]
        exact ⟨i1, i2, i3, i4, i5.trans a3, i6.trans a4⟩

/-- C12: for an argument vector of length `argc` and a trace of `getopt_long`
whose `optind` values start at 1, never decrease and never exceed `argc` (so
that `argc >= 1`): when `parse_opts` returns, `optind` holds `k`, the final `optind` of
`getopt_long` less `skip`, with `1 <= k <= argc`; `*argvp` has been advanced by
`k` and `*argcp` reduced by `k`; the residual arguments are the elements
`argv[k], ..., argv[argc-1]` in their order, as many as the new `*argcp`; the
vector is the `k` elements before them, `argv[0]` among these, followed by the
residual. -/
theorem residual_slice (k : JuliaH) (argv : List String) (rets : List GetoptRet)
    (endind : Int) (st st1 : State)
    (hlen : st.argc = argv.length) (hoff : st.argv = 0)
    (hind : st.optind = 1) (htrace : optind_trace_ok st.argc endind 1 rets = true)
    (h : parse_opts k rets endind st = .cont st1) :
    st1.optind = loop_end_optind endind rets - st1.skip ∧
    1 ≤ st1.optind ∧ st1.optind ≤ st.argc ∧
    st1.argv = st.argv + st1.optind ∧ st1.argc = st.argc - st1.optind ∧
    residual argv st1 = argv.drop st1.optind.toNat ∧
    ((residual argv st1).length : Int) = st1.argc ∧
    (∀ i : Nat, (residual argv st1)[i]? = argv[st1.optind.toNat + i]?) ∧
    argv = argv.take st1.optind.toNat ++ residual argv st1 ∧
    ((argv.take st1.optind.toNat).length : Int) = st1.optind ∧
    (argv.take st1.optind.toNat).head? = argv.head? := by
  obtain ⟨s, hs, rfl⟩ := parse_opts_cont k rets endind st st1 h
  obtain ⟨c1, c2, c3, c4, c5, c6⟩ := parse_loop_cursor k endind st.argc rets 1
    { st with skip := 0, lastind := st.optind } s htrace hind
    (by simp [hind]) (by simp) (by simp) (by simp [hind]) hs
  simp only at c5 c6
  have e1 : (parse_finish s).optind = s.optind - s.skip := rfl
  have e2 : (parse_finish s).skip = s.skip := rfl
  have e3 : (parse_finish s).argv = s.argv + (s.optind - s.skip) := rfl
  have e4 : (parse_finish s).argc = s.argc - (s.optind - s.skip) := rfl
  have k1 : 1 ≤ s.optind - s.skip := by omega
  have k2 : s.optind - s.skip ≤ st.argc := by omega
  have hr : residual argv (parse_finish s) = argv.drop (s.optind - s.skip).toNat := by
    simp [residual, e3, c6, hoff]
  have hk : ((s.optind - s.skip).toNat : Int) = s.optind - s.skip := Int.toNat_of_nonneg (by omega)
  have hle : (s.optind - s.skip).toNat ≤ argv.length := by
    have : ((s.optind - s.skip).toNat : Int) ≤ (argv.length : Int) := by rw [hk, ← hlen]; exact k2
    exact_mod_cast this
  refine ⟨by rw [e1, e2, c1], by rw [e1]; exact k1, by rw [e1]; exact k2,
    by rw [e3, e1, c6], by rw [e4, e1, c5], by rw [hr, e1], ?_, ?_, ?_, ?_, ?_⟩
  · rw [hr, e4, c5, List.length_drop, hlen]
    omega
  · intro i
    rw [hr, e1, List.getElem?_drop]
  · rw [hr, e1, List.take_append_drop]
  · rw [e1, List.length_take, Nat.min_eq_left hle, hk]
  · rw [e1]
    have hp : 0 < (s.optind - s.skip).toNat := by omega
    cases argv with
    | nil => simp
    | cons a t =>
      obtain ⟨n, hn⟩ : ∃ n, (s.optind - s.skip).toNat = n + 1 := ⟨_, (Nat.succ_pred_eq_of_pos hp).symm⟩
      rw [hn]
      rfl

theorem residual_slice_witness :
    ∃ st1, parse_opts julia_h [⟨79, none, 2⟩, ⟨63, none, 3⟩] 3
        (initial julia_h sample_opts 4) = .cont st1 ∧
      st1.optind = 2 ∧
      residual ["julia", "-O", "-q", "file.jl"] st1 = ["-q", "file.jl"] :=
  ⟨_, rfl,
   (residual_slice julia_h ["julia", "-O", "-q", "file.jl"] [⟨79, none, 2⟩, ⟨63, none, 3⟩] 3
      (initial julia_h sample_opts 4) _ rfl rfl rfl (by decide) rfl).1.trans
      (by decide),
   (residual_slice julia_h ["julia", "-O", "-q", "file.jl"] [⟨79, none, 2⟩, ⟨63, none, 3⟩] 3
      (initial julia_h sample_opts 4) _ rfl rfl rfl (by decide) rfl).2.2.2.2.2.1.trans
      (by decide)⟩

/-- C13, the code at `julia -q -O file.jl`: `-q` is counted in `skip`, `-O` is
applied (`opt_level` is 1), and the residual slice starts at `argv[2]`: it holds
`-O` and not `-q`. -/
theorem skipped_flag_not_given_back :
    ∃ st1, parse_opts julia_h interleaved_trace 3 (initial julia_h sample_opts 4) = .cont st1 ∧
      st1.skip = 1 ∧ st1.jl_compileropts.opt_level = 1 ∧ st1.argv = 2 ∧
      residual interleaved_argv st1 = ["-O", "file.jl"] ∧
      "-q" ∉ residual interleaved_argv st1 ∧ "-O" ∈ residual interleaved_argv st1 :=
  ⟨_, rfl, by decide, by decide, by decide, by decide, by decide, by decide⟩

/-! ## Theorems about spellings and the `switch` labels -/

theorem long_table_eq :
    long_c "home" = 72 ∧ long_c "build" = 98 ∧ long_c "lisp" = 0 ∧ long_c "help" = 104 ∧
    long_c "sysimage" = 74 ∧ long_c "code-coverage" = 99 ∧ long_c "cpu-target" = 67 ∧
    long_c "track-allocation" = 109 ∧ long_c "optimize" = 79 := by
  decide

theorem short_c_eq :
    short_c 'H' = 72 ∧ short_c 'h' = 104 ∧ short_c 'J' = 74 ∧ short_c 'C' = 67 ∧
    short_c 'O' = 79 ∧ short_c 'b' = 63 := by
  simp [short_c, short_table_eq]

theorem returnable_m_none (oi : Int) : returnable ⟨109, none, oi⟩ = false := by
  simp [returnable, longopts, short_table_eq, arg_ok]

/-- C17, as the code has it: `--track-allocation` is declared with
`required_argument`, so `getopt_long` never returns it without an argument (an
occurrence `'m'` with `optarg == NULL` is not among its results); a trailing
`--track-allocation` comes back as `'?'`, whose arm leaves `malloclog` and the
whole Configuration as they were.  With the value `"user"` the flag sets
`malloclog` to `JL_LOG_USER` and nothing else, as the no-argument
`--code-coverage` does for `codecov`; the final copies put these into
`malloc_log` and `code_coverage`. -/
theorem track_allocation_needs_argument (k : JuliaH) (st : State) :
    long_has_arg "track-allocation" = some .required_argument ∧
    long_has_arg "code-coverage" = some .optional_argument ∧
    (∀ oi, returnable ⟨109, none, oi⟩ = false) ∧
    (∀ oi, returnable ⟨99, none, oi⟩ = true) ∧
    (∀ optarg, switch_c k 63 optarg st =
      .cont { st with skip := if st.optind ≠ st.lastind then st.skip + 1 else st.skip,
                      lastind := st.optind }) ∧
    switch_c k 109 (some "user") st = .cont { st with malloclog := k.JL_LOG_USER } ∧
    switch_c k 99 none st = .cont { st with codecov := k.JL_LOG_USER } ∧
    (parse_finish st).jl_compileropts.malloc_log = st.malloclog ∧
    (parse_finish st).jl_compileropts.code_coverage = st.codecov := by
  refine ⟨by decide, by decide, fun oi => ?_, fun oi => ?_, fun o => switch_c_63 k o st,
    ?_, ?_, rfl, rfl⟩
  · exact returnable_m_none oi
  · simp [returnable, longopts, short_table_eq, arg_ok]
  · rw [switch_c_109]; simp
  · rw [switch_c_99]

/-- C17, refuted as stated: `--track-allocation` without an argument.  As the
last token it is reported as `'?'`: `parse_opts` returns with `malloc_log` still
`JL_LOG_NONE`, not `JL_LOG_USER`, whereas the no-argument `--code-coverage`
gives `code_coverage = JL_LOG_USER`.  An occurrence `'m'` without argument is
not a result of `getopt_long`, and the arm for it does not set the mode either:
it falls into `case 300` and reads through the `NULL` `optarg`. -/
theorem track_allocation_no_argument :
    returnable ⟨109, none, 2⟩ = false ∧
    switch_c julia_h 109 none (initial julia_h sample_opts 2) = .undefined ∧
    (∃ st1, parse_opts julia_h [⟨63, none, 2⟩] 2 (initial julia_h sample_opts 2) = .cont st1 ∧
      st1.jl_compileropts.malloc_log = julia_h.JL_LOG_NONE ∧
      st1.jl_compileropts.malloc_log ≠ julia_h.JL_LOG_USER) ∧
    (∃ st1, parse_opts julia_h [⟨99, none, 2⟩] 2 (initial julia_h sample_opts 2) = .cont st1 ∧
      st1.jl_compileropts.code_coverage = julia_h.JL_LOG_USER) := by
  refine ⟨returnable_m_none 2, by decide, ⟨_, rfl, by decide, by decide⟩, ⟨_, rfl, by decide⟩⟩

/-- C18, as the code has it: for the pairs `-H` `--home`, `-h` `--help`,
`-J` `--sysimage`, `-C` `--cpu-target`, `-O` `--optimize` both spellings are declared
with the same kind of argument and give the same `c`, hence the same arm with
the same effect for every argument and state.  `-b` is not among the short
options: `getopt_long` reports it as `'?'`, whose arm leaves `build_path`,
`image_file` and the rest of `jl_compileropts` alone; only `--build <path>`
sets `build_path` and clears a non-explicit `image_file`. -/
theorem spellings_agree (k : JuliaH) (st : State) :
    (∀ p ∈ spelling_pairs, p.1 ≠ 'b' →
      short_c p.1 = long_c p.2 ∧ short_has_arg p.1 = long_has_arg p.2 ∧
      ∀ optarg, switch_c k (short_c p.1) optarg st = switch_c k (long_c p.2) optarg st) ∧
    short_has_arg 'b' = none ∧ short_c 'b' = 63 ∧
    long_has_arg "build" = some .required_argument ∧ long_c "build" = 98 ∧
    (∀ optarg, ∃ s1, switch_c k (short_c 'b') optarg st = .cont s1 ∧
      s1.jl_compileropts = st.jl_compileropts ∧
      s1.imagepathspecified = st.imagepathspecified) ∧
    (∀ path, ∃ s1, switch_c k (long_c "build") (some path) st = .cont s1 ∧
      s1.jl_compileropts.build_path = some path ∧
      s1.jl_compileropts.image_file =
        if st.imagepathspecified = 0 then none else st.jl_compileropts.image_file) := by
  obtain ⟨l1, l2, -, l4, l5, -, l7, -, l9⟩ := long_table_eq
  obtain ⟨s1, s2, s3, s4, s5, s6⟩ := short_c_eq
  refine ⟨?_, ?_, s6, by decide, l2, ?_, ?_⟩
  · intro p hp hb
    simp only [spelling_pairs, List.mem_cons, List.mem_singleton, List.not_mem_nil,
      or_false] at hp
    have ha : short_has_arg 'H' = long_has_arg "home" ∧
        short_has_arg 'h' = long_has_arg "help" ∧
        short_has_arg 'J' = long_has_arg "sysimage" ∧
        short_has_arg 'C' = long_has_arg "cpu-target" ∧
        short_has_arg 'O' = long_has_arg "optimize" := by
      simp [short_has_arg, short_table_eq]
      decide
    rcases hp with rfl | rfl | rfl | rfl | rfl | rfl
    · exact ⟨by rw [s1, l1], ha.1, fun o => by rw [s1, l1]⟩
    · exact ⟨by rw [s2, l4], ha.2.1, fun o => by rw [s2, l4]⟩
    · exact ⟨by rw [s3, l5], ha.2.2.1, fun o => by rw [s3, l5]⟩
    · exact ⟨by rw [s4, l7], ha.2.2.2.1, fun o => by rw [s4, l7]⟩
    · exact ⟨by rw [s5, l9], ha.2.2.2.2, fun o => by rw [s5, l9]⟩
    · exact absurd rfl hb
  · simp [short_has_arg, short_table_eq]
  · intro o
    rw [s6, switch_c_63]
    exact ⟨_, rfl, rfl, rfl⟩
  · intro path
    rw [l2, switch_c_98]
    dsimp only
    split_ifs with q
    · exact ⟨_, rfl, rfl, by simp [q]⟩
    · exact ⟨_, rfl, rfl, by simp [q]⟩

/-- C18, refuted as stated: `-b out` against `--build out` at program start.
The short spelling is answered with `'?'`: `build_path` stays `NULL` and the
default `image_file` stays; the long spelling sets `build_path` and clears
`image_file`. -/
theorem short_build_not_recognized :
    short_c 'b' = 63 ∧ long_c "build" = 98 ∧
    (∃ s1, switch_c julia_h (short_c 'b') (some "out") (initial julia_h sample_opts 3) = .cont s1 ∧
      s1.jl_compileropts.build_path = none ∧
      s1.jl_compileropts.image_file = some "sys.ji") ∧
    (∃ s1, switch_c julia_h (long_c "build") (some "out") (initial julia_h sample_opts 3) = .cont s1 ∧
      s1.jl_compileropts.build_path = some "out" ∧
      s1.jl_compileropts.image_file = none) := by
  refine ⟨short_c_eq.2.2.2.2.2, by decide, ?_, ?_⟩
  · rw [short_c_eq.2.2.2.2.2, switch_c_63]
    exact ⟨_, rfl, rfl, rfl⟩
  · rw [long_table_eq.2.1, switch_c_98]
    exact ⟨_, rfl, rfl, rfl⟩

/-- C19: for every result of `getopt_long` for the tables of `parse_opts` the
value `c` is one of the `case` labels, so the arm taken is not `default`; the
`default` branch is taken exactly for the values that are no label, and no
labelled arm ends like it. -/
theorem default_unreachable (k : JuliaH) (r : GetoptRet) (st : State)
    (hr : returnable r = true) :
    r.c ∈ case_labels ∧
    switch_c k r.c r.optarg st ≠ default_outcome r.c st ∧
    (∀ (c : Int) (optarg : Option String) (s : State),
      c ∉ case_labels → switch_c k c optarg s = default_outcome c s) ∧
    (∀ (c : Int) (optarg : Option String) (s : State),
      c ∈ case_labels → switch_c k c optarg s ≠ default_outcome c s) := by
  have hlab : ∀ (c : Int) (optarg : Option String) (s : State),
      c ∈ case_labels → switch_c k c optarg s ≠ default_outcome c s := by
    intro c optarg s hc
    simp only [case_labels, List.mem_cons, List.mem_singleton, List.not_mem_nil, or_false] at hc
    unfold default_outcome
    rcases hc with rfl | rfl | rfl | rfl | rfl | rfl | rfl | rfl | rfl | rfl | rfl | rfl | rfl | rfl | rfl
    · rw [switch_c_0]; simp
    · rw [switch_c_63]; simp
    · rw [switch_c_72]; cases optarg <;> simp
    · rw [switch_c_98]; cases optarg <;> simp; split_ifs <;> simp
    · rw [switch_c_74]; cases optarg <;> simp
    · rw [switch_c_67]; cases optarg <;> simp
    · rw [switch_c_104]; simp
    · rw [switch_c_79]; simp
    · rw [switch_c_99]; cases optarg <;> simp; split_ifs <;> simp
    · rw [switch_c_109]; cases optarg <;> simp; split_ifs <;> simp
    · rw [switch_c_300]; cases optarg <;> simp [case_300]; split_ifs <;> simp
    · rw [switch_c_301]; cases optarg <;> simp; split_ifs <;> simp
    · rw [switch_c_302]; cases optarg <;> simp; split_ifs <;> simp
    · rw [switch_c_303]; cases optarg <;> simp; split_ifs <;> simp
    · rw [switch_c_304]; cases optarg <;> simp; split_ifs <;> simp
  have hmem : r.c ∈ case_labels := by
    have := returnable_cases r hr
    simp only [case_labels, List.mem_cons, List.mem_singleton, List.not_mem_nil, or_false]
    omega
  refine ⟨hmem, hlab r.c r.optarg st hmem, ?_, hlab⟩
  intro c optarg s hc
  simp only [case_labels, List.mem_cons, List.mem_singleton, List.not_mem_nil, or_false,
    not_or] at hc
  exact switch_c_default k optarg s c (by tauto)

theorem default_unreachable_witness :
    returnable ⟨0, none, 2⟩ = true ∧ (0 : Int) ∈ case_labels ∧
    switch_c julia_h 0 none (initial julia_h sample_opts 2) ≠
      default_outcome 0 (initial julia_h sample_opts 2) :=
  ⟨by decide,
   (default_unreachable julia_h ⟨0, none, 2⟩ (initial julia_h sample_opts 2) (by decide)).1,
   (default_unreachable julia_h ⟨0, none, 2⟩ (initial julia_h sample_opts 2) (by decide)).2.1⟩

/-! ## Theorems about `exec_program` -/

/-- A report attempt either jumps, having called neither `jl_load` nor entered
the handler, or logs `exec_report_calls` and returns 1. -/
theorem exec_try_report (env : XEnv) (program : String) (s : XState) (he : s.err ≠ 0) :
    (report_throws env s.attempt = true ∧
      ∃ s1, exec_try env program s = .thrown s1 ∧ s1.attempt = s.attempt ∧
        s1.log.count (.jl_load program) = s.log.count (.jl_load program) ∧
        s1.log.count .JL_CATCH = s.log.count .JL_CATCH) ∨
    (report_throws env s.attempt = false ∧
      exec_try env program s =
        .returned 1 { s with log := s.log ++ exec_report_calls env s.attempt }) := by
  obtain ⟨a, e, lg⟩ := s
  simp only at he
  simp only [report_throws, exec_try, exec_report_end, exec_report_calls, he, ne_eq,
    not_false_eq_true, if_true, one_ne_zero]
  by_cases h0 : env.throws a 0 = true
  · simp [h0, List.count_append, List.count_cons]
  · by_cases hn : env.stderr_obj a 0 = 0
    · by_cases h1 : env.throws a 1 = true
      · simp [h0, hn, h1, List.count_append, List.count_cons]
      · by_cases h2 : env.throws a 2 = true
        · simp [h0, hn, h1, h2, List.count_append, List.count_cons]
        · by_cases h3 : env.throws a 3 = true
          · simp [h0, hn, h1, h2, h3, List.count_append, List.count_cons]
          · simp [h0, hn, h1, h2, h3]
    · by_cases h1 : env.throws a 1 = true
      · simp [h0, hn, h1, List.count_append, List.count_cons]
      · by_cases h2 : env.throws a 2 = true
        · simp [h0, hn, h1, h2, List.count_append, List.count_cons]
        · by_cases h3 : env.throws a 3 = true
          · simp [h0, hn, h1, h2, h3, List.count_append, List.count_cons]
          · simp [h0, hn, h1, h2, h3]

/-- From a report attempt on: if `exec_program` returns, it returns 1, at the
end of a report attempt that went through; `jl_load` has not been called
again, and the handler has been entered once per further attempt. -/
theorem exec_from_report (env : XEnv) (program : String) (fuel : Nat) :
    ∀ (s : XState) (v : Int) (s1 : XState), s.err ≠ 0 →
      exec_from env program fuel s = some (v, s1) →
      v = 1 ∧ s.attempt ≤ s1.attempt ∧ report_throws env s1.attempt = false ∧
      (∀ a, s.attempt ≤ a → a < s1.attempt → report_throws env a = true) ∧
      s1.log.count (.jl_load program) = s.log.count (.jl_load program) ∧
      s1.log.count .JL_CATCH + s.attempt = s.log.count .JL_CATCH + s1.attempt ∧
      ∃ pre, s1.log = pre ++ exec_report_calls env s1.attempt := by
  induction fuel with
  | zero => intro s v s1 _ h; simp [exec_from] at h
  | succ fuel ih =>
    intro s v s1 he h
    unfold exec_from at h
    rcases exec_try_report env program s he with ⟨ht, s2, e, a1, a2, a3⟩ | ⟨ht, e⟩
    · rw [e] at h
      simp only at h
      obtain ⟨i1, i2, i3, i4, i5, i6, i7⟩ := ih (exec_catch s2) v s1 (by simp [exec_catch]) h
      simp only [exec_catch, List.count_append, List.count_cons, List.count_nil] at i2 i4 i5 i6
      simp at i5 i6
      refine ⟨i1, by omega, i3, ?_, by omega, by omega, i7⟩
      intro a h1 h2
      by_cases q : a = s.attempt
      · rw [q]; exact ht
      · exact i4 a (by omega) h2
    · rw [e] at h
      simp only [Option.some.injEq, Prod.mk.injEq] at h
      obtain ⟨rfl, rfl⟩ := h
      refine ⟨rfl, le_rfl, ht, fun a h1 h2 => absurd h2 (by simp; omega), ?_, ?_, _, rfl⟩
      · simp [exec_report_calls, List.count_append, List.count_cons]
        split_ifs <;> simp
      · simp [exec_report_calls, List.count_append, List.count_cons]
        split_ifs <;> simp

/-- While every report attempt jumps, `exec_program` does not return. -/
theorem exec_from_stuck (env : XEnv) (program : String)
    (hall : ∀ a, 1 ≤ a → report_throws env a = true) (fuel : Nat) :
    ∀ s : XState, s.err ≠ 0 → 1 ≤ s.attempt → exec_from env program fuel s = none := by
  induction fuel with
  | zero => intro s _ _; rfl
  | succ fuel ih =>
    intro s he ha
    unfold exec_from
    rcases exec_try_report env program s he with ⟨-, s2, e, a1, -, -⟩ | ⟨ht, -⟩
    · rw [e]
      exact ih (exec_catch s2) (by simp [exec_catch]) (by simp [exec_catch])
    · rw [hall s.attempt ha] at ht
      cases ht

theorem exec_first_attempt (env : XEnv) (program : String) (fuel : Nat) :
    exec_program env program (fuel + 1) =
      if env.throws 0 0 then
        exec_from env program fuel ⟨1, 1, [.jl_load program, .JL_CATCH]⟩
      else some (0, ⟨0, 0, [.jl_load program]⟩) := by
  unfold exec_program
  rw [exec_from]
  by_cases h : env.throws 0 0 = true <;> simp [exec_try, exec_catch, h]

theorem report_calm (env : XEnv) (a : Nat) (h : ∀ j, env.throws a j = false) :
    report_throws env a = false := by
  simp only [report_throws, exec_try, exec_report_end, h]
  split_ifs <;> first | rfl | contradiction

/-- Enough fuel lets `exec_program` return at the first report attempt that
goes through. -/
theorem exec_from_reaches (env : XEnv) (program : String) (d : Nat) :
    ∀ (s : XState) (fuel : Nat), s.err ≠ 0 →
      (∀ a, s.attempt ≤ a → a < s.attempt + d → report_throws env a = true) →
      report_throws env (s.attempt + d) = false → d < fuel →
      ∃ s1, exec_from env program fuel s = some (1, s1) ∧ s1.attempt = s.attempt + d := by
  induction d with
  | zero =>
    intro s fuel he _ hd hf
    obtain ⟨f, rfl⟩ : ∃ f, fuel = f + 1 := ⟨fuel - 1, by omega⟩
    unfold exec_from
    rcases exec_try_report env program s he with ⟨ht, -⟩ | ⟨-, e⟩
    · rw [Nat.add_zero] at hd; rw [hd] at ht; cases ht
    · rw [e]; exact ⟨_, rfl, rfl⟩
  | succ d ih =>
    intro s fuel he hall hd hf
    obtain ⟨f, rfl⟩ : ∃ f, fuel = f + 1 := ⟨fuel - 1, by omega⟩
    unfold exec_from
    rcases exec_try_report env program s he with ⟨-, s2, e, a1, -, -⟩ | ⟨ht, -⟩
    · rw [e]
      have hat : (exec_catch s2).attempt = s.attempt + 1 := by simp [exec_catch, a1]
      obtain ⟨s1, h1, h2⟩ := ih (exec_catch s2) f (by simp [exec_catch])
        (fun a p q => hall a (by omega) (by omega))
        (by rw [hat]; rw [← hd]; congr 1; omega) (by omega)
      exact ⟨s1, h1, by rw [h2, hat]; omega⟩
    · rw [hall s.attempt le_rfl (by omega)] at ht
      cases ht

/-- C14: if no call of a report attempt jumps, `exec_program` calls `jl_load`
exactly once.  If that call completes, it returns 0 having done nothing else.
If it raises, the handler is entered once and the report attempt logs exactly
`exec_report_calls`: the exception in transit is rendered once to `JL_STDERR`,
by `jl_show` when `jl_stderr_obj()` is not `NULL`, otherwise by
`"error during bootstrap: "` and `jl_static_show`, then comes the newline, and 1
is returned.  Whenever it returns, the value is 0 exactly when `jl_load`
completed. -/
theorem exec_program_once (env : XEnv) (program : String)
    (hrender : ∀ a j, 1 ≤ a → env.throws a j = false) :
    (env.throws 0 0 = false → ∀ fuel, 1 ≤ fuel →
      exec_program env program fuel = some (0, ⟨0, 0, [.jl_load program]⟩)) ∧
    (env.throws 0 0 = true → ∀ fuel, 2 ≤ fuel →
      exec_program env program fuel =
        some (1, ⟨1, 1, .jl_load program :: .JL_CATCH :: exec_report_calls env 1⟩)) ∧
    (∀ fuel v s, exec_program env program fuel = some (v, s) →
      s.log.count (.jl_load program) = 1 ∧ (v = 0 ↔ env.throws 0 0 = false) ∧
      (v = 0 ∨ v = 1) ∧
      (v = 1 → s.log = .jl_load program :: .JL_CATCH :: exec_report_calls env 1)) ∧
    (env.stderr_obj 1 0 ≠ 0 →
      exec_report_calls env 1 =
        [.jl_stderr_obj, .jl_stderr_obj, .jl_show (env.stderr_obj 1 1), .jl_printf "\n",
         .JL_EH_POP]) ∧
    (env.stderr_obj 1 0 = 0 →
      exec_report_calls env 1 =
        [.jl_stderr_obj, .jl_printf "error during bootstrap: ", .jl_static_show,
         .jl_printf "\n", .JL_EH_POP]) := by
  have hok : env.throws 0 0 = false → ∀ fuel, 1 ≤ fuel →
      exec_program env program fuel = some (0, ⟨0, 0, [.jl_load program]⟩) := by
    intro h fuel hf
    obtain ⟨f, rfl⟩ : ∃ f, fuel = f + 1 := ⟨fuel - 1, by omega⟩
    rw [exec_first_attempt]
    simp [h]
  have hrep : ∀ f, exec_from env program (f + 1) ⟨1, 1, [.jl_load program, .JL_CATCH]⟩ =
      some (1, ⟨1, 1, .jl_load program :: .JL_CATCH :: exec_report_calls env 1⟩) := by
    intro f
    unfold exec_from
    rcases exec_try_report env program ⟨1, 1, [.jl_load program, .JL_CATCH]⟩ (by simp)
      with ⟨ht, -⟩ | ⟨-, e⟩
    · rw [report_calm env 1 (fun j => hrender 1 j le_rfl)] at ht
      cases ht
    · rw [e]; rfl
  have hraise : env.throws 0 0 = true → ∀ fuel, 2 ≤ fuel →
      exec_program env program fuel =
        some (1, ⟨1, 1, .jl_load program :: .JL_CATCH :: exec_report_calls env 1⟩) := by
    intro h fuel hf
    obtain ⟨f, rfl⟩ : ∃ f, fuel = f + 2 := ⟨fuel - 2, by omega⟩
    rw [exec_first_attempt]
    simp only [h, if_true]
    exact hrep f
  refine ⟨hok, hraise, ?_, ?_, ?_⟩
  · intro fuel v s h
    cases fuel with
    | zero => simp [exec_program, exec_from] at h
    | succ f =>
      by_cases ht : env.throws 0 0 = true
      · cases f with
        | zero => rw [exec_first_attempt] at h; simp [ht, exec_from] at h
        | succ g =>
          rw [hraise ht (g + 2) (by omega)] at h
          simp only [Option.some.injEq, Prod.mk.injEq] at h
          obtain ⟨rfl, rfl⟩ := h
          refine ⟨?_, by simp [ht], Or.inr rfl, fun _ => rfl⟩
          simp [exec_report_calls, List.count_cons, List.count_append]
          split_ifs <;> simp
      · have hf : env.throws 0 0 = false := by simpa using ht
        rw [hok hf (f + 1) (by omega)] at h
        simp only [Option.some.injEq, Prod.mk.injEq] at h
        obtain ⟨rfl, rfl⟩ := h
        exact ⟨by simp, by simp [hf], Or.inl rfl, fun h => absurd h (by decide)⟩
  · intro h; simp [exec_report_calls, h]
  · intro h; simp [exec_report_calls, h]

theorem exec_program_once_witness :
    exec_program load_fails_env "prog.jl" 2 =
      some (1, ⟨1, 1, [.jl_load "prog.jl", .JL_CATCH, .jl_stderr_obj, .jl_stderr_obj,
        .jl_show 1, .jl_printf "\n", .JL_EH_POP]⟩) :=
  (exec_program_once load_fails_env "prog.jl"
    (fun a j h => by
      have : a ≠ 0 := by omega
      simp [load_fails_env, this])).2.1 rfl 2 le_rfl

/-- C20, as the code has it: whatever the collaborators do, `jl_load` is called
exactly once, and if `exec_program` returns, it returns 0 (exactly when `jl_load`
completed) or 1.  After `jl_load` has raised, every report attempt in which a
call jumps is followed by another report attempt: the handler has been entered
once per attempt begun after the first, `exec_program` returns 1 at the first
report attempt that goes through, and it does so whenever there is one; when
every report attempt jumps it never returns. -/
theorem exec_program_report_retry (env : XEnv) (program : String) :
    (∀ fuel v s, exec_program env program fuel = some (v, s) →
      s.log.count (.jl_load program) = 1 ∧ (v = 0 ∨ v = 1) ∧
      (v = 1 ↔ env.throws 0 0 = true) ∧
      s.log.count .JL_CATCH = s.attempt ∧
      (v = 1 → 1 ≤ s.attempt ∧ report_throws env s.attempt = false ∧
        (∀ a, 1 ≤ a → a < s.attempt → report_throws env a = true) ∧
        ∃ pre, s.log = pre ++ exec_report_calls env s.attempt)) ∧
    (∀ n, env.throws 0 0 = true → (∀ a, 1 ≤ a → a ≤ n → report_throws env a = true) →
      report_throws env (n + 1) = false → ∀ fuel, n + 2 ≤ fuel →
      ∃ s, exec_program env program fuel = some (1, s) ∧ s.attempt = n + 1) ∧
    (env.throws 0 0 = true → (∀ a, 1 ≤ a → report_throws env a = true) →
      ∀ fuel, exec_program env program fuel = none) := by
  refine ⟨?_, ?_, ?_⟩
  · intro fuel v s h
    cases fuel with
    | zero => simp [exec_program, exec_from] at h
    | succ f =>
      rw [exec_first_attempt] at h
      by_cases ht : env.throws 0 0 = true
      · simp only [ht, if_true] at h
        obtain ⟨i1, i2, i3, i4, i5, i6, i7⟩ :=
          exec_from_report env program f _ v s (by simp) h
        simp at i2 i5 i6
        refine ⟨by rw [i5], Or.inr i1, by simp [i1, ht], by omega, fun _ => ⟨i2, i3, ?_, i7⟩⟩
        intro a h1 h2
        exact i4 a h1 h2
      · have hf : env.throws 0 0 = false := by simpa using ht
        simp only [hf] at h
        simp only [Bool.false_eq_true, if_false, Option.some.injEq, Prod.mk.injEq] at h
        obtain ⟨rfl, rfl⟩ := h
        exact ⟨by simp, Or.inl rfl, by simp [hf], by simp, fun h => absurd h (by decide)⟩
  · intro n ht hall hgo fuel hfuel
    obtain ⟨f, rfl⟩ : ∃ f, fuel = f + 1 := ⟨fuel - 1, by omega⟩
    rw [exec_first_attempt]
    simp only [ht, if_true]
    obtain ⟨s1, h1, h2⟩ := exec_from_reaches env program n
      ⟨1, 1, [.jl_load program, .JL_CATCH]⟩ f (by simp)
      (fun a p q => hall a p (by simp at q; omega))
      (by simpa [Nat.add_comm] using hgo) (by omega)
    exact ⟨s1, h1, by rw [h2]; simp; omega⟩
  · intro ht hall fuel
    cases fuel with
    | zero => rfl
    | succ f =>
      rw [exec_first_attempt]
      simp only [ht, if_true]
      exact exec_from_stuck env program hall f _ (by simp) (by simp)

/-- C20, refuted as stated: `jl_load` raises and `jl_show` raises in the first
report attempt.  The handler is entered a second time and the report branch
runs again: the exception is handed to `jl_show` twice before `exec_program`
returns 1. -/
theorem report_entered_twice :
    exec_program show_fails_once_env "prog.jl" 3 =
      some (1, ⟨2, 1, [.jl_load "prog.jl", .JL_CATCH,
        .jl_stderr_obj, .jl_stderr_obj, .jl_show 1, .JL_CATCH,
        .jl_stderr_obj, .jl_stderr_obj, .jl_show 1, .jl_printf "\n", .JL_EH_POP]⟩) := by
  decide

/-! ## Theorems about `true_main` and `main` -/

/-- C16, as the code has it: provided the `assert` on `ARGS` holds, `true_main`
first fills `ARGS` with the residual arguments when the base module is set, and
then runs exactly one of three stages.  If the base module binds `_start`, it
applies it and, when that returns, returns 0.  Otherwise, if there is a first
residual argument and it is not `"-"`, it runs `exec_program` on it and returns
its outcome.  Otherwise, that is with no residual argument or with `"-"` as the
first, it runs the interactive loop and returns its outcome. -/
theorem true_main_modes (rt : Runtime) (xenv : XEnv) (env : Env) (fuel : Nat)
    (argv : List String)
    (hassert : rt.jl_base_module = true → rt.ARGS.getD [] = []) :
    (rt.jl_base_module = true → rt.start_client = true →
      (true_main rt xenv env fuel argv).stages =
        args_stage rt argv ++ [.jl_apply_start_client] ∧
      (true_main rt xenv env fuel argv).outcome =
        if rt.start_returns then .returned 0 else .no_return) ∧
    (¬ (rt.jl_base_module = true ∧ rt.start_client = true) →
      ∀ a rest, argv = a :: rest → a ≠ "-" →
        (true_main rt xenv env fuel argv).stages = args_stage rt argv ++ [.exec_program a] ∧
        (true_main rt xenv env fuel argv).outcome = stage_outcome (exec_program xenv a fuel)) ∧
    (¬ (rt.jl_base_module = true ∧ rt.start_client = true) →
      (argv = [] ∨ ∃ rest, argv = "-" :: rest) →
        (true_main rt xenv env fuel argv).stages = args_stage rt argv ++ [.interactive_loop] ∧
        (true_main rt xenv env fuel argv).outcome = stage_outcome (interactive env fuel)) := by
  have hmain : true_main rt xenv env fuel argv =
      true_main_dispatch rt xenv env fuel argv (args_stage rt argv) := by
    unfold true_main args_stage
    by_cases hb : rt.jl_base_module = true
    · simp [hb, hassert hb]
    · simp [hb]
  rw [hmain]
  refine ⟨?_, ?_, ?_⟩
  · intro hb hs
    unfold true_main_dispatch
    by_cases hr : rt.start_returns = true <;> simp [hb, hs, hr]
  · intro hn a rest ha hd
    subst ha
    have hc : (rt.jl_base_module && rt.start_client) = false := by
      cases h1 : rt.jl_base_module <;> cases h2 : rt.start_client <;> simp_all
    unfold true_main_dispatch
    simp only [hc, Bool.false_eq_true, if_false, hd, ne_eq, not_false_eq_true, if_true]
    cases exec_program xenv a fuel with
    | none => exact ⟨rfl, rfl⟩
    | some p => exact ⟨rfl, rfl⟩
  · intro hn ha
    have hc : (rt.jl_base_module && rt.start_client) = false := by
      cases h1 : rt.jl_base_module <;> cases h2 : rt.start_client <;> simp_all
    unfold true_main_dispatch
    rcases ha with rfl | ⟨rest, rfl⟩
    · simp only [hc, Bool.false_eq_true, if_false]
      cases interactive env fuel with
      | none => exact ⟨rfl, rfl⟩
      | some p => exact ⟨rfl, rfl⟩
    · simp only [hc, Bool.false_eq_true, if_false, ne_eq, not_true_eq_false]
      cases interactive env fuel with
      | none => exact ⟨rfl, rfl⟩
      | some p => exact ⟨rfl, rfl⟩

theorem true_main_modes_witness :
    (true_main bare_runtime load_fails_env calm_env 3 ["prog.jl", "x"]).stages =
      [.set_ARGS ["prog.jl", "x"], .exec_program "prog.jl"] ∧
    (true_main bare_runtime load_fails_env calm_env 3 ["prog.jl", "x"]).outcome = .returned 1 :=
  ⟨((true_main_modes bare_runtime load_fails_env calm_env 3 ["prog.jl", "x"]
      (fun _ => rfl)).2.1 (by decide) "prog.jl" ["x"] rfl (by decide)).1,
   ((true_main_modes bare_runtime load_fails_env calm_env 3 ["prog.jl", "x"]
      (fun _ => rfl)).2.1 (by decide) "prog.jl" ["x"] rfl (by decide)).2.trans (by decide)⟩

/-- C16, refuted as stated: no `_start`, and the residual arguments are `-` and
`x`; they are not empty, yet `exec_program` is not run: `true_main` runs the
interactive loop. -/
theorem dash_runs_interactive_loop :
    true_main bare_runtime calm_xenv calm_env 3 ["-", "x"] =
      ⟨.returned 0, [.set_ARGS ["-", "x"], .interactive_loop]⟩ := by
  decide

/-- C15, as the code has it: whenever `main` returns, `parse_opts` has returned,
and one of two things happened.  With `lisp_prompt` set (the `--lisp` mode) the
calls were `libsupport_init`, `parse_opts`, `jl_lisp_prompt` and the value is 0:
neither `julia_init` nor `jl_atexit_hook` is called.  With `lisp_prompt` clear
the calls were `libsupport_init`, `parse_opts`, `julia_init` (once), `true_main`
on the residual arguments, `jl_atexit_hook` (once, last), and the value is the
one `true_main` returned. -/
theorem main_returns (k : JuliaH) (rt : Runtime) (xenv : XEnv) (env : Env) (fuel : Nat)
    (argv : List String) (rets : List GetoptRet) (endind : Int) (st : State)
    (v : Int) (calls : List MCall)
    (h : main k rt xenv env fuel argv rets endind st = ⟨.returned v, calls⟩) :
    ∃ st1, parse_opts k rets endind st = .cont st1 ∧
      ((st1.lisp_prompt ≠ 0 ∧ v = 0 ∧
          calls = [.libsupport_init, .parse_opts, .jl_lisp_prompt] ∧
          calls.count .jl_atexit_hook = 0 ∧
          ∀ b, calls.count (.julia_init b) = 0) ∨
       (st1.lisp_prompt = 0 ∧
          (true_main rt xenv env fuel (residual argv st1)).outcome = .returned v ∧
          calls = [.libsupport_init, .parse_opts,
            .julia_init (decide (st1.imagepathspecified ≠ 0)),
            .true_main (residual argv st1), .jl_atexit_hook] ∧
          calls.count .jl_atexit_hook = 1 ∧
          calls.count (.julia_init (decide (st1.imagepathspecified ≠ 0))) = 1 ∧
          calls.count (.julia_init (decide (st1.imagepathspecified = 0))) = 0)) := by
  unfold main at h
  cases hp : parse_opts k rets endind st with
  | exit n s => rw [hp] at h; simp at h
  | undefined => rw [hp] at h; simp at h
  | cont st1 =>
    rw [hp] at h
    refine ⟨st1, rfl, ?_⟩
    by_cases hl : st1.lisp_prompt = 0
    · right
      simp only [hl, ne_eq, not_true_eq_false, if_false] at h
      cases ho : (true_main rt xenv env fuel (residual argv st1)).outcome with
      | returned w =>
        rw [ho] at h
        simp only [MResult.mk.injEq, MOutcome.returned.injEq] at h
        obtain ⟨rfl, rfl⟩ := h
        refine ⟨hl, rfl, rfl, by simp [List.count_cons], by simp [List.count_cons], ?_⟩
        by_cases q : st1.imagepathspecified = 0 <;> simp [List.count_cons, q]
      | no_return => rw [ho] at h; simp at h
      | assert_failed => rw [ho] at h; simp at h
    · left
      simp only [hl, ne_eq, not_false_eq_true, if_true, MResult.mk.injEq,
        MOutcome.returned.injEq] at h
      obtain ⟨rfl, rfl⟩ := h
      exact ⟨hl, rfl, rfl, by simp [List.count_cons], fun b => by simp [List.count_cons]⟩

theorem main_returns_witness :
    main julia_h bare_runtime load_fails_env calm_env 3
        ["julia", "-J", "my.ji", "prog.jl"] [⟨74, some "my.ji", 3⟩] 3
        (initial julia_h sample_opts 4) =
      ⟨.returned 1, [.libsupport_init, .parse_opts, .julia_init true, .true_main ["prog.jl"],
        .jl_atexit_hook]⟩ ∧
    ∃ st1, parse_opts julia_h [⟨74, some "my.ji", 3⟩] 3 (initial julia_h sample_opts 4) =
      .cont st1 :=
  ⟨by decide,
   (main_returns julia_h bare_runtime load_fails_env calm_env 3
      ["julia", "-J", "my.ji", "prog.jl"] [⟨74, some "my.ji", 3⟩] 3
      (initial julia_h sample_opts 4) 1
      [.libsupport_init, .parse_opts, .julia_init true, .true_main ["prog.jl"], .jl_atexit_hook]
      (by decide)).imp (fun _ h => h.1)⟩

/-- C15, refuted as stated: `julia --lisp`.  `getopt_long` stores 1 into
`lisp_prompt` and returns 0; `main` runs `jl_lisp_prompt` and returns 0 without
a call of `julia_init` or of `jl_atexit_hook`. -/
theorem lisp_mode_skips_init_and_hook :
    main julia_h bare_runtime calm_xenv calm_env 3 ["julia", "--lisp"] [⟨0, none, 2⟩] 2
        (initial julia_h sample_opts 2) =
      ⟨.returned 0, [.libsupport_init, .parse_opts, .jl_lisp_prompt]⟩ := by
  decide

end Repl
